import Mathlib

/-!
Verification development for the rvmat library (Go): a lexer, a
recursive-descent parser, a canonical writer and a validator for the
Real Virtuality `.rvmat` material format.

Modelling conventions (shallow embedding of the Go source):
* Byte/character streams are `List Char`; the Go code reads runes, and all
  inputs exercised here are ASCII, where runes and bytes coincide.
* Go `float64` values are modelled as exact rationals (`ℚ`).  The Go writer
  prints floats with `strconv.AppendFloat(_, 'g', -1, 64)` (shortest
  representation that parses back to the same value) and the parser reads
  them with `strconv.ParseFloat`; the composition is the identity on
  `float64`.  The model mirrors this by printing exact decimals and parsing
  them exactly, so print-then-parse is the identity on the modelled values.
  `Inf`/`NaN`/hex literals and float rounding/range errors are outside the
  modelled fragment.
* `unicode.IsSpace` / `unicode.IsLetter` etc. are modelled on the character
  sets the format actually uses (ASCII letters and digits, the Unicode
  whitespace characters below U+00FF).
* The Go parser pulls tokens lazily from the lexer; the model tokenizes the
  whole input first and then runs the parser on the token list.  On every
  input whose complete tokenization succeeds the two are equivalent.
* The known shader/stage name tables (validate_lists.go) and the file-system
  path resolver are external collaborators per the specification; they enter
  the validator as explicit parameters.
-/

set_option maxHeartbeats 1000000

namespace Rvmat

/-- Character strings, modelled as lists of characters. -/
abbrev Str := List Char

/-- `unicode.IsSpace` restricted to the characters below U+0100
(tab, newline, vertical tab, form feed, carriage return, space, NEL, NBSP). -/
def isSpaceCh (c : Char) : Bool :=
  c = ' ' || c = '\t' || c = '\n' || (c.toNat = 11) || (c.toNat = 12) ||
  c = '\r' || (c.toNat = 133) || (c.toNat = 160)

/-- `unicode.IsLetter` on the ASCII fragment. -/
def isLetterCh (c : Char) : Bool := c.isAlpha

/-- `unicode.IsDigit` on the ASCII fragment. -/
def isDigitCh (c : Char) : Bool := c.isDigit

/-- isIdentStart checks if a character is a valid start of an identifier. -/
def isIdentStart (c : Char) : Bool := isLetterCh c || c = '_' || c = '$'

/-- isIdentPart checks if a character is a valid part of an identifier. -/
def isIdentPart (c : Char) : Bool :=
  isLetterCh c || isDigitCh c || c = '_' || c = '$'

/-- isNumberStart checks if a character is a valid start of a number. -/
def isNumberStart (c : Char) : Bool := isDigitCh c || c = '-'

/-- isWordPart checks if a character is a valid part of a word. -/
def isWordPart (c : Char) : Bool :=
  isIdentPart c || c = '.' || c = '+' || c = '-'

/-- asciiLower converts a byte to lowercase (ASCII). -/
def asciiLower (c : Char) : Char :=
  if 'A' ≤ c ∧ c ≤ 'Z' then Char.ofNat (c.toNat + 32) else c

/-- ASCII case-insensitive string equality (`strings.EqualFold` on the ASCII
fragment, which is all the format's keywords use). -/
def eqFold (a b : Str) : Bool :=
  a.map asciiLower = b.map asciiLower

/-- matchKey checks if the two strings are equal (case folding optional). -/
def matchKey (a b : Str) (ci : Bool) : Bool :=
  if ci then eqFold a b else a = b

/-- hasPrefixKey checks if the string has a prefix, optionally
case-insensitively (ASCII folding, as in the source). -/
def hasPrefixKey (s pre : Str) (ci : Bool) : Bool :=
  if ci then pre.isPrefixOf (s.map asciiLower) else pre.isPrefixOf s

/-- The numeric value of a list of decimal digit characters
(most significant first). -/
def digitsVal (ds : Str) : ℕ :=
  ds.foldl (fun acc c => 10 * acc + (c.toNat - 48)) 0

/-- Splits off the longest prefix satisfying `p` (`span`). -/
def spanP (p : Char → Bool) (s : Str) : Str × Str :=
  (s.takeWhile p, s.dropWhile p)

/-- Euclid's algorithm by structural recursion on a fuel bound, so that the
kernel can evaluate it (`Nat.gcd` itself is well-founded). -/
def gcdAux : ℕ → ℕ → ℕ → ℕ
  | 0, _, b => b
  | fuel + 1, a, b => if a = 0 then b else gcdAux fuel (b % a) a

theorem gcdAux_eq (fuel : ℕ) : ∀ a b : ℕ, a ≤ fuel → gcdAux fuel a b = Nat.gcd a b := by
  induction fuel with
  | zero =>
    intro a b h
    obtain rfl : a = 0 := Nat.le_zero.mp h
    simp [gcdAux]
  | succ f ih =>
    intro a b h
    by_cases ha : a = 0
    · subst ha
      simp [gcdAux]
    · rw [gcdAux, if_neg ha, ih (b % a) a (by
        have := Nat.mod_lt b (Nat.pos_of_ne_zero ha)
        omega)]
      exact (Nat.gcd_rec a b).symm

/-- Kernel-computable `Nat.gcd`. -/
def gcdS (a b : ℕ) : ℕ := gcdAux (a + 1) a b

theorem gcdS_eq (a b : ℕ) : gcdS a b = Nat.gcd a b :=
  gcdAux_eq (a + 1) a b (Nat.le_succ a)

/-- Kernel-computable construction of the reduced rational `n / d`
(`mkRat`, with the gcd computed structurally). -/
def qmk (n : ℤ) (d : ℕ) : ℚ :=
  if hd : d = 0 then 0
  else
    ⟨n.tdiv (gcdS n.natAbs d), d / gcdS n.natAbs d,
      Rat.normalize.den_nz hd (gcdS_eq n.natAbs d),
      Rat.normalize.reduced hd (gcdS_eq n.natAbs d)⟩

theorem qmk_eq_mkRat (n : ℤ) (d : ℕ) : qmk n d = mkRat n d := by
  unfold qmk mkRat Rat.normalize
  by_cases hd : d = 0
  · rw [dif_pos hd, dif_pos hd]
    rfl
  · rw [dif_neg hd, dif_neg hd, Rat.maybeNormalize_eq]
    have hg := gcdS_eq n.natAbs d
    apply Rat.ext <;> simp only [hg]

/-- The exponent of a float literal: empty means `0`, otherwise `e`/`E`, an
optional sign and a nonempty digit run. -/
def parseExpZ (s : Str) : Option ℤ :=
  match s with
  | [] => some 0
  | c :: r =>
    if c = 'e' ∨ c = 'E' then
      let (neg, r2) : Bool × Str :=
        match r with
        | '+' :: r' => (false, r')
        | '-' :: r' => (true, r')
        | _ => (false, r)
      let (ds, r3) := spanP isDigitCh r2
      if ds = [] ∨ r3 ≠ [] then none
      else if neg then some (-(digitsVal ds : ℤ))
      else some ((digitsVal ds : ℤ))
    else none

/-- The exact rational value `mant / 10^denPow * 10^e`. -/
def qFromParts (mant : ℤ) (denPow : ℕ) (e : ℤ) : ℚ :=
  if 0 ≤ e then qmk (mant * 10 ^ e.toNat) (10 ^ denPow)
  else qmk mant (10 ^ denPow * 10 ^ (-e).toNat)

/-- The unsigned part of `strconv.ParseFloat`'s decimal grammar:
`digits [ '.' digits ] [ exponent ]`, with at least one digit. -/
def parseUnsignedQ (s : Str) : Option ℚ :=
  let (ip, r1) := spanP isDigitCh s
  match r1 with
  | '.' :: r2 =>
    let (fp, r3) := spanP isDigitCh r2
    if ip = [] ∧ fp = [] then none
    else
      (parseExpZ r3).map fun e =>
        qFromParts (digitsVal ip * 10 ^ fp.length + digitsVal fp) fp.length e
  | _ =>
    if ip = [] then none
    else (parseExpZ r1).map fun e => qFromParts (digitsVal ip) 0 e

/-- `strconv.ParseFloat` on the decimal fragment, exact: sign, integer part,
optional fractional part, optional exponent.  Returns the exact rational
value of the literal (the model for the parsed `float64`). -/
def parseFloatQ (s : Str) : Option ℚ :=
  match s with
  | '+' :: r => parseUnsignedQ r
  | '-' :: r => (parseUnsignedQ r).map fun q => qmk (-q.num) q.den
  | _ => parseUnsignedQ s

/-- isValidNumber checks if a string is a valid number: every character is a
numeric-literal character and the whole word parses as a float. -/
def isValidNumber (s : Str) : Bool :=
  s ≠ [] &&
  s.all (fun c => isDigitCh c || c = '.' || c = '+' || c = '-' || c = 'e' || c = 'E') &&
  (parseFloatQ s).isSome

/-- Fueled divisor-count loop; `n` itself bounds the iteration count. -/
def factorCountF (p : ℕ) : ℕ → ℕ → ℕ
  | 0, _ => 0
  | fuel + 1, n =>
    if 2 ≤ p ∧ n ≠ 0 ∧ p ∣ n then factorCountF p fuel (n / p) + 1 else 0

/-- How many times `p` divides `n` (`0` for `n = 0` or `p ≤ 1`). -/
def factorCount (p n : ℕ) : ℕ := factorCountF p n n

/-- The decimal digit character for `d < 10`. -/
def digitCh (d : ℕ) : Char := Char.ofNat (48 + d)

/-- The decimal digit characters of `n`, most significant first (fueled;
`n` bounds the digit count). -/
def natToCharsF : ℕ → ℕ → Str
  | 0, _ => []
  | fuel + 1, n =>
    if n < 10 then [digitCh n]
    else natToCharsF fuel (n / 10) ++ [digitCh (n % 10)]

/-- The decimal digit characters of `n`, most significant first. -/
def natToChars (n : ℕ) : Str := natToCharsF (n + 1) n

/-- A rational has an exact finite decimal representation iff its reduced
denominator is of the form `2^a * 5^b`.  Parsed `float64` values always do
(they are binary fractions). -/
def decimalOK (q : ℚ) : Bool :=
  q.den = 2 ^ factorCount 2 q.den * 5 ^ factorCount 5 q.den

/-- The fixed-point decimal digits (with sign and point) of a rational whose
denominator divides a power of ten: mantissa over `10^k` with `k` minimal. -/
def fmtNumCore (q : ℚ) : Str :=
  let a := factorCount 2 q.den
  let b := factorCount 5 q.den
  let k := max a b
  let mant : ℤ := q.num * ((10 ^ k / q.den : ℕ) : ℤ)
  let sign : Str := if mant < 0 then ['-'] else []
  let ds := natToChars mant.natAbs
  if k = 0 then sign ++ ds
  else
    let padded := List.replicate (k + 1 - ds.length) '0' ++ ds
    sign ++ padded.take (padded.length - k) ++ '.' :: padded.drop (padded.length - k)

/-- writeNumber / formatFloat: the canonical decimal form of a number value
(the model of `strconv.FormatFloat(v, 'g', -1, 64)`: shortest exact form;
the model always uses fixed-point notation). -/
def fmtNum (q : ℚ) : Str :=
  if decimalOK q then fmtNumCore q else ['0']

/-! ## Options -/

/-- ParseOptions controls parsing behavior. -/
structure ParseOptions where
  disableCaseInsensitive : Bool
  disableComments : Bool
  disableRelaxedNumbers : Bool
deriving DecidableEq

/-- The zero value of ParseOptions (all tolerances on). -/
def defaultParseOptions : ParseOptions := ⟨false, false, false⟩

/-- normalize normalizes the ParseOptions (nil becomes the zero value). -/
def ParseOptions.normalize : Option ParseOptions → ParseOptions
  | none => defaultParseOptions
  | some o => o

/-- FormatOptions controls writer formatting. -/
structure FormatOptions where
  indent : Str
deriving DecidableEq

/-- normalize normalizes the FormatOptions (nil or empty indent becomes
four spaces). -/
def FormatOptions.normalize : Option FormatOptions → FormatOptions
  | none => ⟨[' ', ' ', ' ', ' ']⟩
  | some o => if o.indent = [] then ⟨[' ', ' ', ' ', ' ']⟩ else o

/-! ## Lexer -/

/-- tokenType represents a type of a token. -/
inductive TokType where
  | eof | ident | number | str
  | lbrace | rbrace | lbracket | rbracket
  | equal | semicolon | colon | comma | kclass
deriving DecidableEq

/-- token represents a token in the RVMAT file (literal and position). -/
structure Tok where
  t : TokType
  lit : Str
  line : ℕ
  col : ℕ
deriving DecidableEq

/-- The position-erased view of a token (type and literal). -/
def Tok.e (tk : Tok) : TokType × Str := (tk.t, tk.lit)

/-- Errors: binary input, lexer errors and parse errors with positions. -/
inductive RErr where
  | binary
  | lex (line col : ℕ) (msg : Str)
  | parse (line col : ℕ) (msg : Str)
deriving DecidableEq

/-- Lexer state: the unconsumed input (current character at the head, the
way the Go lexer keeps it in `l.ch`), and the line/column of that current
character.  The head being absent is the Go lexer's `eof` flag. -/
structure LexSt where
  inp : Str
  line : ℕ
  col : ℕ
deriving DecidableEq

/-- Position update on reading one character (read at end of input leaves
the position unchanged, as in the source). -/
def stepPos (line col : ℕ) : Option Char → ℕ × ℕ
  | none => (line, col)
  | some c => if c = '\n' then (line + 1, 0) else (line, col + 1)

/-- read: drop the current character and account for the next one. -/
def LexSt.adv (σ : LexSt) : LexSt :=
  match σ.inp with
  | [] => σ
  | _ :: rest =>
    let p := stepPos σ.line σ.col rest.head?
    ⟨rest, p.1, p.2⟩

/-- The current character (`l.ch`; `none` is the eof flag). -/
def LexSt.cur (σ : LexSt) : Option Char := σ.inp.head?

/-- peek: the character after the current one (`0` at end of input is
modelled as `none`). -/
def LexSt.pk (σ : LexSt) : Option Char := σ.inp.tail.head?

theorem LexSt.adv_le (σ : LexSt) : σ.adv.inp.length ≤ σ.inp.length := by
  rcases σ with ⟨inp, l, c⟩
  cases inp <;> simp [LexSt.adv]

theorem LexSt.adv_lt (σ : LexSt) (h : σ.inp ≠ []) :
    σ.adv.inp.length < σ.inp.length := by
  rcases σ with ⟨inp, l, c⟩
  cases inp with
  | nil => simp at h
  | cons a r => simp [LexSt.adv]

/-- newLexer positions the lexer on the first character and skips a UTF-8
byte-order mark if present. -/
def lexInit (input : Str) : LexSt :=
  let σ : LexSt := ⟨input, (stepPos 1 0 input.head?).1, (stepPos 1 0 input.head?).2⟩
  if σ.cur = some (Char.ofNat 0xFEFF) then σ.adv else σ

/-- Consume the current whitespace run (loop body of `skipWhitespace`),
recursing structurally on the remaining input. -/
def skipWsGo : Str → ℕ → ℕ → LexSt
  | [], l, co => ⟨[], l, co⟩
  | ch :: r, l, co =>
    if isSpaceCh ch then
      skipWsGo r (stepPos l co r.head?).1 (stepPos l co r.head?).2
    else ⟨ch :: r, l, co⟩

/-- Consume the current whitespace run. -/
def skipWs : LexSt → LexSt
  | ⟨inp, l, co⟩ => skipWsGo inp l co

/-- Consume a `//` comment body: everything up to (not including) the next
newline, or to end of input. -/
def skipLineGo : Str → ℕ → ℕ → LexSt
  | [], l, co => ⟨[], l, co⟩
  | ch :: r, l, co =>
    if ch = '\n' then ⟨ch :: r, l, co⟩
    else skipLineGo r (stepPos l co r.head?).1 (stepPos l co r.head?).2

/-- Consume a `//` comment body (state form). -/
def skipLine : LexSt → LexSt
  | ⟨inp, l, co⟩ => skipLineGo inp l co

/-- Consume a `/* ... */` comment body including the closing delimiter, or
everything to end of input if unterminated. -/
def skipBlockGo : Str → ℕ → ℕ → LexSt
  | [], l, co => ⟨[], l, co⟩
  | ch :: r, l, co =>
    if ch = '*' ∧ r.head? = some '/' then
      (LexSt.adv ⟨ch :: r, l, co⟩).adv
    else skipBlockGo r (stepPos l co r.head?).1 (stepPos l co r.head?).2

/-- Consume a `/* ... */` comment body (state form). -/
def skipBlock : LexSt → LexSt
  | ⟨inp, l, co⟩ => skipBlockGo inp l co

theorem skipWsGo_le (inp : Str) : ∀ l co : ℕ,
    (skipWsGo inp l co).inp.length ≤ inp.length := by
  induction inp with
  | nil => intro l co; simp [skipWsGo]
  | cons ch r ih =>
    intro l co
    rw [skipWsGo]
    by_cases hs : isSpaceCh ch
    · rw [if_pos hs]
      exact le_trans (ih _ _) (by simp)
    · rw [if_neg hs]

theorem skipWs_le (σ : LexSt) : (skipWs σ).inp.length ≤ σ.inp.length := by
  rcases σ with ⟨inp, l, co⟩
  exact skipWsGo_le inp l co

theorem skipLineGo_le (inp : Str) : ∀ l co : ℕ,
    (skipLineGo inp l co).inp.length ≤ inp.length := by
  induction inp with
  | nil => intro l co; simp [skipLineGo]
  | cons ch r ih =>
    intro l co
    rw [skipLineGo]
    by_cases hs : ch = '\n'
    · rw [if_pos hs]
    · rw [if_neg hs]
      exact le_trans (ih _ _) (by simp)

theorem skipLine_le (σ : LexSt) : (skipLine σ).inp.length ≤ σ.inp.length := by
  rcases σ with ⟨inp, l, co⟩
  exact skipLineGo_le inp l co

theorem skipBlockGo_le (inp : Str) : ∀ l co : ℕ,
    (skipBlockGo inp l co).inp.length ≤ inp.length := by
  induction inp with
  | nil => intro l co; simp [skipBlockGo]
  | cons ch r ih =>
    intro l co
    rw [skipBlockGo]
    by_cases hs : ch = '*' ∧ r.head? = some '/'
    · rw [if_pos hs]
      exact le_trans (LexSt.adv_le _) (le_trans (LexSt.adv_le _) (le_refl _))
    · rw [if_neg hs]
      exact le_trans (ih _ _) (by simp)

theorem skipBlock_le (σ : LexSt) : (skipBlock σ).inp.length ≤ σ.inp.length := by
  rcases σ with ⟨inp, l, co⟩
  exact skipBlockGo_le inp l co

/-- The comment-skipping half of the whitespace loop: at a `/` with a
comment ahead, consume the comment, skip further whitespace and repeat.
Structural fuel bounds the iteration count; the wrapper below supplies
more fuel than the input length, which each iteration strictly shrinks,
so the fuel never runs out on the wrapper's calls. -/
def skipComsF (ac : Bool) : ℕ → LexSt → LexSt
  | 0, σ => σ
  | _ + 1, ⟨[], l, co⟩ => ⟨[], l, co⟩
  | fuel + 1, ⟨ch :: r, l, co⟩ =>
    if ac ∧ ch = '/' then
      if r.head? = some '/' then
        skipComsF ac fuel (skipWs (skipLine (LexSt.adv (LexSt.adv ⟨ch :: r, l, co⟩))))
      else if r.head? = some '*' then
        skipComsF ac fuel (skipWs (skipBlock (LexSt.adv (LexSt.adv ⟨ch :: r, l, co⟩))))
      else ⟨ch :: r, l, co⟩
    else ⟨ch :: r, l, co⟩

/-- The comment-skipping half of the whitespace loop. -/
def skipComs (ac : Bool) (σ : LexSt) : LexSt :=
  skipComsF ac (σ.inp.length + 1) σ

/-- skipWhitespace skips whitespace characters and (when comments are
enabled) `//` and `/* */` comments, repeatedly. -/
def skipWhitespace (ac : Bool) (σ : LexSt) : LexSt :=
  skipComs ac (skipWs σ)

theorem skipComsF_le (ac : Bool) :
    ∀ fuel : ℕ, ∀ σ : LexSt, (skipComsF ac fuel σ).inp.length ≤ σ.inp.length := by
  intro fuel
  induction fuel with
  | zero => intro σ; exact le_refl _
  | succ n ih =>
    intro σ
    rcases σ with ⟨inp, l, co⟩
    cases inp with
    | nil => exact le_refl _
    | cons ch r =>
      rw [skipComsF]
      by_cases hc : ac = true ∧ ch = '/'
      · rw [if_pos hc]
        have h2 := (LexSt.adv (⟨ch :: r, l, co⟩ : LexSt)).adv_le
        have h4 : (LexSt.adv (⟨ch :: r, l, co⟩ : LexSt)).inp.length < (ch :: r).length := by
          simp [LexSt.adv]
        by_cases h1 : r.head? = some '/'
        · rw [if_pos h1]
          have h3 := skipLine_le (LexSt.adv (⟨ch :: r, l, co⟩ : LexSt)).adv
          have h5 := skipWs_le (skipLine (LexSt.adv (⟨ch :: r, l, co⟩ : LexSt)).adv)
          have hrec := ih (skipWs (skipLine (LexSt.adv (⟨ch :: r, l, co⟩ : LexSt)).adv))
          simp only [List.length_cons] at *
          omega
        · rw [if_neg h1]
          by_cases h1' : r.head? = some '*'
          · rw [if_pos h1']
            have h3 := skipBlock_le (LexSt.adv (⟨ch :: r, l, co⟩ : LexSt)).adv
            have h5 := skipWs_le (skipBlock (LexSt.adv (⟨ch :: r, l, co⟩ : LexSt)).adv)
            have hrec := ih (skipWs (skipBlock (LexSt.adv (⟨ch :: r, l, co⟩ : LexSt)).adv))
            simp only [List.length_cons] at *
            omega
          · rw [if_neg h1']
      · rw [if_neg hc]

theorem skipComs_le (ac : Bool) (σ : LexSt) :
    (skipComs ac σ).inp.length ≤ σ.inp.length :=
  skipComsF_le ac (σ.inp.length + 1) σ

theorem skipWhitespace_le (ac : Bool) (σ : LexSt) :
    (skipWhitespace ac σ).inp.length ≤ σ.inp.length :=
  le_trans (skipComs_le ac (skipWs σ)) (skipWs_le σ)

/-- readIdent reads an identifier: the maximal run of identifier
characters, recursing structurally on the input. -/
def readIdentGo : Str → ℕ → ℕ → Str × LexSt
  | [], l, co => ([], ⟨[], l, co⟩)
  | ch :: r, l, co =>
    if isIdentPart ch then
      let p := readIdentGo r (stepPos l co r.head?).1 (stepPos l co r.head?).2
      (ch :: p.1, p.2)
    else ([], ⟨ch :: r, l, co⟩)

/-- readIdent reads an identifier: the maximal run of identifier characters. -/
def readIdent : LexSt → Str × LexSt
  | ⟨inp, l, co⟩ => readIdentGo inp l co

/-- readNumberOrIdent: the maximal run of word characters. -/
def readWordGo : Str → ℕ → ℕ → Str × LexSt
  | [], l, co => ([], ⟨[], l, co⟩)
  | ch :: r, l, co =>
    if isWordPart ch then
      let p := readWordGo r (stepPos l co r.head?).1 (stepPos l co r.head?).2
      (ch :: p.1, p.2)
    else ([], ⟨ch :: r, l, co⟩)

/-- readNumberOrIdent reads the maximal run of word characters. -/
def readWord : LexSt → Str × LexSt
  | ⟨inp, l, co⟩ => readWordGo inp l co

theorem readIdentGo_len (inp : Str) : ∀ l co : ℕ,
    (readIdentGo inp l co).2.inp.length + (readIdentGo inp l co).1.length
      = inp.length := by
  induction inp with
  | nil => intro l co; simp [readIdentGo]
  | cons ch r ih =>
    intro l co
    rw [readIdentGo]
    by_cases hs : isIdentPart ch
    · rw [if_pos hs]
      have := ih (stepPos l co r.head?).1 (stepPos l co r.head?).2
      dsimp only at this ⊢
      simp only [List.length_cons]
      omega
    · rw [if_neg hs]
      dsimp only
      simp

theorem readIdent_len (σ : LexSt) :
    (readIdent σ).2.inp.length + (readIdent σ).1.length = σ.inp.length := by
  rcases σ with ⟨inp, l, co⟩
  exact readIdentGo_len inp l co

theorem readWordGo_len (inp : Str) : ∀ l co : ℕ,
    (readWordGo inp l co).2.inp.length + (readWordGo inp l co).1.length
      = inp.length := by
  induction inp with
  | nil => intro l co; simp [readWordGo]
  | cons ch r ih =>
    intro l co
    rw [readWordGo]
    by_cases hs : isWordPart ch
    · rw [if_pos hs]
      have := ih (stepPos l co r.head?).1 (stepPos l co r.head?).2
      dsimp only at this ⊢
      simp only [List.length_cons]
      omega
    · rw [if_neg hs]
      dsimp only
      simp

theorem readWord_len (σ : LexSt) :
    (readWord σ).2.inp.length + (readWord σ).1.length = σ.inp.length := by
  rcases σ with ⟨inp, l, co⟩
  exact readWordGo_len inp l co

/-- readString's scanning loop, entered just after the opening quote: a
doubled quote is an escaped quote, `\"` and `\\` are escapes, everything
else (including newlines) is copied verbatim; end of input is an
"unterminated string" lex error positioned at the current character.
Recursion is structural on the input; the two-characters-left case is a
separate pattern so that the escape forms can consume two characters. -/
def readStrLoopGo : Str → ℕ → ℕ → Except RErr (Str × LexSt)
  | [], l, co => .error (.lex l co ("unterminated string".data))
  | [ch], l, co =>
    if ch = '"' then .ok ([], ⟨[], l, co⟩)
    else .error (.lex l co ("unterminated string".data))
  | c1 :: c2 :: r, l, co =>
    let p1 := stepPos l co (some c2)
    let p2 := stepPos p1.1 p1.2 r.head?
    if c1 = '"' then
      if c2 = '"' then (readStrLoopGo r p2.1 p2.2).map fun p => ('"' :: p.1, p.2)
      else .ok ([], ⟨c2 :: r, p1.1, p1.2⟩)
    else if c1 = '\\' ∧ (c2 = '\\' ∨ c2 = '"') then
      (readStrLoopGo r p2.1 p2.2).map fun p => (c2 :: p.1, p.2)
    else
      (readStrLoopGo (c2 :: r) p1.1 p1.2).map fun p => (c1 :: p.1, p.2)

/-- readString's scanning loop (state form). -/
def readStrLoop : LexSt → Except RErr (Str × LexSt)
  | ⟨inp, l, co⟩ => readStrLoopGo inp l co

theorem readStrLoopGo_ok_le :
    ∀ n : ℕ, ∀ inp : Str, inp.length ≤ n → ∀ l co : ℕ, ∀ s : Str, ∀ σ' : LexSt,
      readStrLoopGo inp l co = .ok (s, σ') → σ'.inp.length ≤ inp.length := by
  intro n
  induction n with
  | zero =>
    intro inp hn l co s σ' h
    obtain rfl : inp = [] := List.length_eq_zero.mp (Nat.le_zero.mp hn)
    simp [readStrLoopGo] at h
  | succ n ih =>
    intro inp hn l co s σ' h
    rcases inp with _ | ⟨c1, _ | ⟨c2, r⟩⟩
    · simp [readStrLoopGo] at h
    · rw [readStrLoopGo] at h
      by_cases hq : c1 = '"'
      · rw [if_pos hq] at h
        simp only [Except.ok.injEq, Prod.mk.injEq] at h
        rw [← h.2]
        simp
      · rw [if_neg hq] at h
        simp at h
    · rw [readStrLoopGo] at h
      by_cases h1 : c1 = '"'
      · rw [if_pos h1] at h
        by_cases h2 : c2 = '"'
        · rw [if_pos h2] at h
          cases hr : readStrLoopGo r
              (stepPos (stepPos l co (some c2)).1 (stepPos l co (some c2)).2 r.head?).1
              (stepPos (stepPos l co (some c2)).1 (stepPos l co (some c2)).2 r.head?).2 with
          | error e => rw [hr] at h; simp [Except.map] at h
          | ok p =>
            rw [hr] at h
            simp only [Except.map, Except.ok.injEq, Prod.mk.injEq] at h
            rw [← h.2]
            have := ih r (by simp only [List.length_cons] at hn ⊢; omega)
              _ _ p.1 p.2 (by rw [hr])
            simp only [List.length_cons]
            omega
        · rw [if_neg h2] at h
          simp only [Except.ok.injEq, Prod.mk.injEq] at h
          rw [← h.2]
          simp only [List.length_cons]
          omega
      · rw [if_neg h1] at h
        by_cases h3 : c1 = '\\' ∧ (c2 = '\\' ∨ c2 = '"')
        · rw [if_pos h3] at h
          cases hr : readStrLoopGo r
              (stepPos (stepPos l co (some c2)).1 (stepPos l co (some c2)).2 r.head?).1
              (stepPos (stepPos l co (some c2)).1 (stepPos l co (some c2)).2 r.head?).2 with
          | error e => rw [hr] at h; simp [Except.map] at h
          | ok p =>
            rw [hr] at h
            simp only [Except.map, Except.ok.injEq, Prod.mk.injEq] at h
            rw [← h.2]
            have := ih r (by simp only [List.length_cons] at hn ⊢; omega)
              _ _ p.1 p.2 (by rw [hr])
            simp only [List.length_cons]
            omega
        · rw [if_neg h3] at h
          cases hr : readStrLoopGo (c2 :: r)
              (stepPos l co (some c2)).1 (stepPos l co (some c2)).2 with
          | error e => rw [hr] at h; simp [Except.map] at h
          | ok p =>
            rw [hr] at h
            simp only [Except.map, Except.ok.injEq, Prod.mk.injEq] at h
            rw [← h.2]
            have := ih (c2 :: r) (by simp only [List.length_cons] at hn ⊢; omega)
              _ _ p.1 p.2 (by rw [hr])
            simp only [List.length_cons] at this ⊢
            omega

theorem readStrLoop_ok_le (σ : LexSt) (s : Str) (σ' : LexSt)
    (h : readStrLoop σ = .ok (s, σ')) : σ'.inp.length ≤ σ.inp.length := by
  rcases σ with ⟨inp, l, co⟩
  exact readStrLoopGo_ok_le inp.length inp (le_refl _) l co s σ' h

/-- tokenName returns the name of a token type (for error messages). -/
def tokenName : TokType → Str
  | .eof => ("EOF".data)
  | .ident => ("identifier".data)
  | .number => ("number".data)
  | .str => ("string".data)
  | .lbrace => ("\x7b".data)
  | .rbrace => ("\x7d".data)
  | .lbracket => ("[".data)
  | .rbracket => ("]".data)
  | .equal => ("=".data)
  | .semicolon => (";".data)
  | .colon => (":".data)
  | .comma => (",".data)
  | .kclass => ("class".data)

/-- The token-emitting core of `lexer.next`, entered after whitespace and
comments have been skipped. -/
def lexEmit : LexSt → Except RErr (Tok × LexSt)
  | ⟨[], l, co⟩ => .ok (⟨.eof, [], l, co⟩, ⟨[], l, co⟩)
  | ⟨ch :: r, l, co⟩ =>
    let σ : LexSt := ⟨ch :: r, l, co⟩
    if ch = Char.ofNat 123 then .ok (⟨.lbrace, [ch], l, co⟩, σ.adv)
    else if ch = Char.ofNat 125 then .ok (⟨.rbrace, [ch], l, co⟩, σ.adv)
    else if ch = '[' then .ok (⟨.lbracket, [ch], l, co⟩, σ.adv)
    else if ch = ']' then .ok (⟨.rbracket, [ch], l, co⟩, σ.adv)
    else if ch = '=' then .ok (⟨.equal, [ch], l, co⟩, σ.adv)
    else if ch = ';' then .ok (⟨.semicolon, [ch], l, co⟩, σ.adv)
    else if ch = ':' then .ok (⟨.colon, [ch], l, co⟩, σ.adv)
    else if ch = ',' then .ok (⟨.comma, [ch], l, co⟩, σ.adv)
    else if ch = '"' then
      (readStrLoop σ.adv).map fun p => (⟨.str, p.1, l, co⟩, p.2)
    else if isIdentStart ch then
      let p := readIdent σ
      if eqFold p.1 ("class".data) then .ok (⟨.kclass, p.1, l, co⟩, p.2)
      else .ok (⟨.ident, p.1, l, co⟩, p.2)
    else if isNumberStart ch then
      let p := readWord σ
      if isValidNumber p.1 then .ok (⟨.number, p.1, l, co⟩, p.2)
      else .ok (⟨.ident, p.1, l, co⟩, p.2)
    else
      .error (.lex l co (("unexpected character '".data) ++ [ch] ++ ['\'']))

/-- next returns the next token: skip whitespace/comments, then emit. -/
def lexNext (opt : ParseOptions) (σ : LexSt) : Except RErr (Tok × LexSt) :=
  lexEmit (skipWhitespace (!opt.disableComments) σ)

theorem lexEmit_ok_lt (σ : LexSt) (t : Tok) (σ' : LexSt)
    (h : lexEmit σ = .ok (t, σ')) (ht : t.t ≠ .eof) :
    σ'.inp.length < σ.inp.length := by
  rcases σ with ⟨inp, l, co⟩
  cases inp with
  | nil =>
    simp only [lexEmit, Except.ok.injEq, Prod.mk.injEq] at h
    rcases h with ⟨h1, _⟩
    rw [← h1] at ht
    simp at ht
  | cons ch r =>
    rw [lexEmit] at h
    simp only at h
    by_cases h1 : ch = Char.ofNat 123
    · rw [if_pos h1] at h
      simp only [Except.ok.injEq, Prod.mk.injEq] at h
      rw [← h.2]
      exact LexSt.adv_lt _ (by simp)
    · rw [if_neg h1] at h
      by_cases h2 : ch = Char.ofNat 125
      · rw [if_pos h2] at h
        simp only [Except.ok.injEq, Prod.mk.injEq] at h
        rw [← h.2]
        exact LexSt.adv_lt _ (by simp)
      · rw [if_neg h2] at h
        by_cases h3 : ch = '['
        · rw [if_pos h3] at h
          simp only [Except.ok.injEq, Prod.mk.injEq] at h
          rw [← h.2]
          exact LexSt.adv_lt _ (by simp)
        · rw [if_neg h3] at h
          by_cases h4 : ch = ']'
          · rw [if_pos h4] at h
            simp only [Except.ok.injEq, Prod.mk.injEq] at h
            rw [← h.2]
            exact LexSt.adv_lt _ (by simp)
          · rw [if_neg h4] at h
            by_cases h5 : ch = '='
            · rw [if_pos h5] at h
              simp only [Except.ok.injEq, Prod.mk.injEq] at h
              rw [← h.2]
              exact LexSt.adv_lt _ (by simp)
            · rw [if_neg h5] at h
              by_cases h6 : ch = ';'
              · rw [if_pos h6] at h
                simp only [Except.ok.injEq, Prod.mk.injEq] at h
                rw [← h.2]
                exact LexSt.adv_lt _ (by simp)
              · rw [if_neg h6] at h
                by_cases h7 : ch = ':'
                · rw [if_pos h7] at h
                  simp only [Except.ok.injEq, Prod.mk.injEq] at h
                  rw [← h.2]
                  exact LexSt.adv_lt _ (by simp)
                · rw [if_neg h7] at h
                  by_cases h8 : ch = ','
                  · rw [if_pos h8] at h
                    simp only [Except.ok.injEq, Prod.mk.injEq] at h
                    rw [← h.2]
                    exact LexSt.adv_lt _ (by simp)
                  · rw [if_neg h8] at h
                    by_cases h9 : ch = '"'
                    · rw [if_pos h9] at h
                      cases hr : readStrLoop (LexSt.adv ⟨ch :: r, l, co⟩) with
                      | error e => rw [hr] at h; simp [Except.map] at h
                      | ok p =>
                        rw [hr] at h
                        simp only [Except.map, Except.ok.injEq, Prod.mk.injEq] at h
                        have := readStrLoop_ok_le _ p.1 p.2 (by rw [hr])
                        have h10 := LexSt.adv_lt (⟨ch :: r, l, co⟩ : LexSt) (by simp)
                        rw [← h.2]
                        omega
                    · rw [if_neg h9] at h
                      by_cases h10 : isIdentStart ch
                      · rw [if_pos h10] at h
                        have hlen := readIdent_len ⟨ch :: r, l, co⟩
                        have hfst : (readIdent ⟨ch :: r, l, co⟩).1 ≠ [] := by
                          rw [readIdent, readIdentGo]
                          rw [if_pos (by simp [isIdentPart, isIdentStart, isLetterCh] at h10 ⊢; tauto)]
                          simp
                        by_cases h11 : eqFold (readIdent ⟨ch :: r, l, co⟩).1 ("class".data)
                        · rw [if_pos h11] at h
                          simp only [Except.ok.injEq, Prod.mk.injEq] at h
                          rw [← h.2]
                          have : 0 < (readIdent ⟨ch :: r, l, co⟩).1.length :=
                            List.length_pos.mpr hfst
                          dsimp only at hlen ⊢
                          simp only [List.length_cons] at hlen ⊢
                          omega
                        · rw [if_neg h11] at h
                          simp only [Except.ok.injEq, Prod.mk.injEq] at h
                          rw [← h.2]
                          have : 0 < (readIdent ⟨ch :: r, l, co⟩).1.length :=
                            List.length_pos.mpr hfst
                          dsimp only at hlen ⊢
                          simp only [List.length_cons] at hlen ⊢
                          omega
                      · rw [if_neg h10] at h
                        by_cases h12 : isNumberStart ch
                        · rw [if_pos h12] at h
                          have hlen := readWord_len ⟨ch :: r, l, co⟩
                          have hfst : (readWord ⟨ch :: r, l, co⟩).1 ≠ [] := by
                            rw [readWord, readWordGo]
                            rw [if_pos (by
                              simp [isWordPart, isIdentPart, isNumberStart] at h12 ⊢
                              tauto)]
                            simp
                          have hpos : 0 < (readWord ⟨ch :: r, l, co⟩).1.length :=
                            List.length_pos.mpr hfst
                          by_cases h13 : isValidNumber (readWord ⟨ch :: r, l, co⟩).1
                          · rw [if_pos h13] at h
                            simp only [Except.ok.injEq, Prod.mk.injEq] at h
                            rw [← h.2]
                            dsimp only at hlen ⊢
                            simp only [List.length_cons] at hlen ⊢
                            omega
                          · rw [if_neg h13] at h
                            simp only [Except.ok.injEq, Prod.mk.injEq] at h
                            rw [← h.2]
                            dsimp only at hlen ⊢
                            simp only [List.length_cons] at hlen ⊢
                            omega
                        · rw [if_neg h12] at h
                          simp at h

theorem lexNext_ok_lt (opt : ParseOptions) (σ : LexSt) (t : Tok) (σ' : LexSt)
    (h : lexNext opt σ = .ok (t, σ')) (ht : t.t ≠ .eof) :
    σ'.inp.length < σ.inp.length :=
  lt_of_lt_of_le (lexEmit_ok_lt _ t σ' h ht) (skipWhitespace_le _ σ)

/-- The full token stream of the input, ending with the EOF token, with
structural fuel; each emitted token consumes at least one character, so
the wrapper's fuel (input length + 1) never runs out. -/
def lexListF (opt : ParseOptions) : ℕ → LexSt → Except RErr (List Tok)
  | 0, σ => .error (.lex σ.line σ.col ("fuel exhausted".data))
  | fuel + 1, σ =>
    match lexNext opt σ with
    | .error e => .error e
    | .ok (t, σ') =>
      if t.t = .eof then .ok [t]
      else (lexListF opt fuel σ').map fun ts => t :: ts

/-- The full token stream of the input, ending with the EOF token. -/
def lexList (opt : ParseOptions) (σ : LexSt) : Except RErr (List Tok) :=
  lexListF opt (σ.inp.length + 1) σ

/-- With more fuel than the input length, the fueled token-stream loop
computes `lexList`. -/
theorem lexListF_stable (opt : ParseOptions) :
    ∀ fuel : ℕ, ∀ σ : LexSt, σ.inp.length < fuel →
      lexListF opt fuel σ = lexList opt σ := by
  intro fuel
  induction fuel using Nat.strong_induction_on with
  | _ fuel ih =>
    intro σ hσ
    match fuel, hσ with
    | f + 1, hσ =>
      rw [lexList]
      rw [lexListF, lexListF]
      cases hx : lexNext opt σ with
      | error e => rfl
      | ok p =>
        rcases p with ⟨t, σ'⟩
        dsimp only
        by_cases ht : t.t = .eof
        · rw [if_pos ht, if_pos ht]
        · rw [if_neg ht, if_neg ht]
          have hlt := lexNext_ok_lt opt σ t σ' hx ht
          have e1 : lexListF opt f σ' = lexList opt σ' := by
            exact ih f (by omega) σ' (by omega)
          have e2 : lexListF opt σ.inp.length σ' = lexList opt σ' := by
            exact ih σ.inp.length (by omega) σ' (by omega)
          rw [e1, e2]

/-- Unfolding lemma: a lexer error ends tokenization with that error. -/
theorem lexList_err (opt : ParseOptions) (σ : LexSt) (e : RErr)
    (h : lexNext opt σ = .error e) : lexList opt σ = .error e := by
  rw [lexList, lexListF, h]

/-- Unfolding lemma: the EOF token ends the stream. -/
theorem lexList_eof (opt : ParseOptions) (σ : LexSt) (t : Tok) (σ' : LexSt)
    (h : lexNext opt σ = .ok (t, σ')) (ht : t.t = .eof) :
    lexList opt σ = .ok [t] := by
  rw [lexList, lexListF, h]
  dsimp only
  rw [if_pos ht]

/-- Unfolding lemma: a non-EOF token is prepended to the rest of the
stream. -/
theorem lexList_cons (opt : ParseOptions) (σ : LexSt) (t : Tok) (σ' : LexSt)
    (h : lexNext opt σ = .ok (t, σ')) (ht : t.t ≠ .eof) :
    lexList opt σ = (lexList opt σ').map fun ts => t :: ts := by
  rw [lexList, lexListF, h]
  dsimp only
  rw [if_neg ht]
  have hlt := lexNext_ok_lt opt σ t σ' h ht
  rw [lexListF_stable opt σ.inp.length σ' (by omega)]

/-- isBinaryRVMAT checks if the input is a binary RVMAT: a zero byte
anywhere in the first 4096 bytes. -/
def isBinaryRVMAT (input : Str) : Bool :=
  (input.take 4096).any fun c => c = Char.ofNat 0

/-- Tokenize a whole input (the lexer, run to the EOF token). -/
def tokenize (opt : ParseOptions) (input : Str) : Except RErr (List Tok) :=
  lexList opt (lexInit input)

/-! ## Value / AST model -/

/-- value represents a parsed literal: number, quoted string, bare
identifier, or array of values. -/
inductive Value where
  | num (q : ℚ)
  | str (s : Str)
  | ident (s : Str)
  | arr (elems : List Value)

mutual

/-- Boolean equality on values. -/
def Value.beq : Value → Value → Bool
  | .num a, .num b => a = b
  | .str a, .str b => a = b
  | .ident a, .ident b => a = b
  | .arr a, .arr b => Value.beqList a b
  | _, _ => false

/-- Boolean equality on value lists. -/
def Value.beqList : List Value → List Value → Bool
  | [], [] => true
  | a :: as, b :: bs => Value.beq a b && Value.beqList as bs
  | _, _ => false

end

mutual

theorem valueBeq_iff : ∀ a b : Value, (Value.beq a b = true) ↔ a = b
  | .num a, .num b => by simp [Value.beq]
  | .num a, .str b => by simp [Value.beq]
  | .num a, .ident b => by simp [Value.beq]
  | .num a, .arr b => by simp [Value.beq]
  | .str a, .num b => by simp [Value.beq]
  | .str a, .str b => by simp [Value.beq]
  | .str a, .ident b => by simp [Value.beq]
  | .str a, .arr b => by simp [Value.beq]
  | .ident a, .num b => by simp [Value.beq]
  | .ident a, .str b => by simp [Value.beq]
  | .ident a, .ident b => by simp [Value.beq]
  | .ident a, .arr b => by simp [Value.beq]
  | .arr a, .num b => by simp [Value.beq]
  | .arr a, .str b => by simp [Value.beq]
  | .arr a, .ident b => by simp [Value.beq]
  | .arr a, .arr b => by
    simp only [Value.beq, Value.arr.injEq]
    exact valueBeqList_iff a b

theorem valueBeqList_iff : ∀ a b : List Value, (Value.beqList a b = true) ↔ a = b
  | [], [] => by simp [Value.beqList]
  | [], _ :: _ => by simp [Value.beqList]
  | _ :: _, [] => by simp [Value.beqList]
  | a :: as, b :: bs => by
    simp only [Value.beqList, Bool.and_eq_true, List.cons.injEq]
    exact and_congr (valueBeq_iff a b) (valueBeqList_iff as bs)

end

instance : DecidableEq Value := fun a b => decidable_of_iff _ (valueBeq_iff a b)

/-- node is a parsed AST node: an assignment `name[ ]= value;` or a class
block with optional base and recursive body. -/
inductive Node where
  | assign (name : Str) (isArray : Bool) (val : Value)
  | cls (name base : Str) (body : List Node)

mutual

/-- Boolean equality on nodes. -/
def Node.beq : Node → Node → Bool
  | .assign n1 a1 v1, .assign n2 a2 v2 => n1 = n2 && a1 = a2 && v1 = v2
  | .cls n1 b1 body1, .cls n2 b2 body2 => n1 = n2 && b1 = b2 && Node.beqList body1 body2
  | _, _ => false

/-- Boolean equality on node lists. -/
def Node.beqList : List Node → List Node → Bool
  | [], [] => true
  | a :: as, b :: bs => Node.beq a b && Node.beqList as bs
  | _, _ => false

end

mutual

theorem nodeBeq_iff : ∀ a b : Node, (Node.beq a b = true) ↔ a = b
  | .assign n1 a1 v1, .assign n2 a2 v2 => by
    simp [Node.beq, and_assoc]
  | .assign n1 a1 v1, .cls n2 b2 body2 => by simp [Node.beq]
  | .cls n1 b1 body1, .assign n2 a2 v2 => by simp [Node.beq]
  | .cls n1 b1 body1, .cls n2 b2 body2 => by
    simp only [Node.beq, Bool.and_eq_true, decide_eq_true_eq, Node.cls.injEq, and_assoc]
    exact and_congr Iff.rfl (and_congr Iff.rfl (nodeBeqList_iff body1 body2))

theorem nodeBeqList_iff : ∀ a b : List Node, (Node.beqList a b = true) ↔ a = b
  | [], [] => by simp [Node.beqList]
  | [], _ :: _ => by simp [Node.beqList]
  | _ :: _, [] => by simp [Node.beqList]
  | a :: as, b :: bs => by
    simp only [Node.beqList, Bool.and_eq_true, List.cons.injEq]
    exact and_congr (nodeBeq_iff a b) (nodeBeqList_iff as bs)

end

instance : DecidableEq Node := fun a b => decidable_of_iff _ (nodeBeq_iff a b)

/-! ## Texture references -/

/-- TextureKind indicates texture reference type (the Go zero value of the
string-typed kind is `unknown`). -/
inductive TKind where
  | unknown | path | procedural
deriving DecidableEq

/-- ProceduralColor is procedural texture color(r,g,b,a[,tag]). -/
structure ProceduralColor where
  tag : Str
  r : ℚ
  g : ℚ
  b : ℚ
  a : ℚ
deriving DecidableEq

/-- ProceduralFresnel is procedural texture fresnel(a,b) / fresnelGlass. -/
structure ProceduralFresnel where
  a : ℚ
  b : ℚ
deriving DecidableEq

/-- ProceduralIrradiance is procedural texture irradiance(x). -/
structure ProceduralIrradiance where
  value : ℚ
deriving DecidableEq

/-- ProceduralTexture is a parsed procedural texture expression. -/
structure ProceduralTexture where
  color : Option ProceduralColor
  fresnel : Option ProceduralFresnel
  irradiance : Option ProceduralIrradiance
  format : Str
  func : Str
  args : List Str
  width : ℤ
  height : ℤ
  mip : ℤ
deriving DecidableEq

/-- TextureRef represents a texture reference string. -/
structure TextureRef where
  procedural : Option ProceduralTexture
  raw : Str
  kind : TKind
  parsedOK : Bool
deriving DecidableEq

/-- The Go zero value of TextureRef. -/
def TextureRef.zero : TextureRef := ⟨none, [], .unknown, false⟩

/-- IsProcedural reports whether the texture is procedural. -/
def TextureRef.IsProcedural (t : TextureRef) : Bool := t.kind = .procedural

/-- IsPath reports whether the texture is a file path. -/
def TextureRef.IsPath (t : TextureRef) : Bool := t.kind = .path

/-- TrimSpace on both ends (whitespace as in the lexer's model of
`unicode.IsSpace`). -/
def trimSpace (s : Str) : Str :=
  ((s.dropWhile isSpaceCh).reverse.dropWhile isSpaceCh).reverse

/-- strings.TrimSuffix. -/
def trimSuf (suf s : Str) : Str :=
  if suf.isSuffixOf s then s.take (s.length - suf.length) else s

/-- strings.ToLower on the ASCII fragment. -/
def toLowerStr (s : Str) : Str := s.map asciiLower

/-- strings.Split on a separator character. -/
def splitOnCh (sep : Char) : Str → List Str
  | [] => [[]]
  | c :: r =>
    if c = sep then [] :: splitOnCh sep r
    else
      match splitOnCh sep r with
      | [] => [[c]]
      | h :: t => (c :: h) :: t

/-- splitCSV splits a CSV string into trimmed fields (nil for blank). -/
def splitCSV (s : Str) : List Str :=
  if trimSpace s = [] then [] else (splitOnCh ',' s).map trimSpace

/-- The index of the first occurrence of `c` (strings.Index for one-char
patterns). -/
def idxOfCh (c : Char) (s : Str) : Option ℕ :=
  s.findIdx? fun x => x = c

/-- The index of the last occurrence of `c` (strings.LastIndex for one-char
patterns). -/
def lastIdxOfCh (c : Char) (s : Str) : Option ℕ :=
  (idxOfCh c s.reverse).map fun i => s.length - 1 - i

/-- strconv.Atoi on decimal literals (unbounded; the 64-bit range check is
outside the modelled fragment). -/
def atoiZ (s : Str) : Option ℤ :=
  let digits : Str → Option ℕ := fun ds =>
    if ds ≠ [] ∧ ds.all isDigitCh then some (digitsVal ds) else none
  match s with
  | '+' :: r => (digits r).map Int.ofNat
  | '-' :: r => (digits r).map fun n => -(n : ℤ)
  | _ => (digits s).map Int.ofNat

/-- parseFloatArg parses a trimmed string to a float. -/
def parseFloatArg (s : Str) : Option ℚ :=
  let t := trimSpace s
  if t = [] then none else parseFloatQ t

/-- NormalizeTextureRaw attempts to clean malformed texture strings seen in
the wild. -/
def NormalizeTextureRaw (raw : Str) : Str :=
  let s := trimSpace raw
  let ls := toLowerStr s
  if (("texture=\"" : String)).data.isPrefixOf ls then
    let s1 := s.drop (("texture=\"" : String)).data.length
    let s2 := trimSuf (("\";" : String)).data s1
    let s3 := trimSuf (("\"" : String)).data s2
    trimSpace s3
  else
    trimSpace (trimSuf (("\";" : String)).data s)

/-- parseFunc splits `name(args)` into the trimmed name and comma-split,
trimmed arguments; the `(` must not be leading and `)` must follow it. -/
def parseFunc (s : Str) : Option (Str × List Str) :=
  match idxOfCh '(' s, lastIdxOfCh ')' s with
  | some openI, some closeI =>
    if openI = 0 ∨ closeI ≤ openI then none
    else
      let name := trimSpace (s.take openI)
      let argsRaw := (s.drop (openI + 1)).take (closeI - openI - 1)
      some (name, (splitCSV argsRaw).map trimSpace)
  | _, _ => none

/-- parseProceduralColor parses a color(...) procedural texture: 4 or 5
arguments whose first four parse as floats; a 5th is an opaque tag. -/
def parseProceduralColor (pt : ProceduralTexture) : ProceduralTexture :=
  let decorate : Str → Str → Str → Str → Str → ProceduralTexture :=
    fun ar ag ab aa tag =>
      match parseFloatArg ar, parseFloatArg ag, parseFloatArg ab, parseFloatArg aa with
      | some r, some g, some b, some a =>
        ⟨some ⟨tag, r, g, b, a⟩, pt.fresnel, pt.irradiance, pt.format, pt.func,
          pt.args, pt.width, pt.height, pt.mip⟩
      | _, _, _, _ => pt
  match pt.args with
  | [ar, ag, ab, aa] => decorate ar ag ab aa []
  | [ar, ag, ab, aa, tag] => decorate ar ag ab aa tag
  | _ => pt

/-- parseProceduralFresnel parses fresnel(a[,b]) (b defaults to 0). -/
def parseProceduralFresnel (pt : ProceduralTexture) : ProceduralTexture :=
  let put : ℚ → ℚ → ProceduralTexture := fun a b =>
    ⟨pt.color, some ⟨a, b⟩, pt.irradiance, pt.format, pt.func, pt.args,
      pt.width, pt.height, pt.mip⟩
  match pt.args with
  | [aa] =>
    match parseFloatArg aa with
    | some a => put a 0
    | none => pt
  | [aa, ab] =>
    match parseFloatArg aa, parseFloatArg ab with
    | some a, some b => put a b
    | _, _ => pt
  | _ => pt

/-- parseProceduralIrradiance parses irradiance(x). -/
def parseProceduralIrradiance (pt : ProceduralTexture) : ProceduralTexture :=
  match pt.args with
  | [aa] =>
    match parseFloatArg aa with
    | some v =>
      ⟨pt.color, pt.fresnel, some ⟨v⟩, pt.format, pt.func, pt.args,
        pt.width, pt.height, pt.mip⟩
    | none => pt
  | _ => pt

/-- parseProceduralArgs decorates a procedural texture according to its
(case-insensitive) function name. -/
def parseProceduralArgs (pt : ProceduralTexture) : ProceduralTexture :=
  if toLowerStr pt.func = (("color" : String)).data then parseProceduralColor pt
  else if toLowerStr pt.func = (("fresnel" : String)).data then parseProceduralFresnel pt
  else if toLowerStr pt.func = (("fresnelglass" : String)).data then parseProceduralFresnel pt
  else if toLowerStr pt.func = (("irradiance" : String)).data then parseProceduralIrradiance pt
  else pt

/-- parseProcedural parses the minimal procedural form
`#(fmt,w,h,mip)func(args...)`. -/
def parseProcedural (raw : Str) : Option ProceduralTexture :=
  if ¬ (("#(" : String)).data.isPrefixOf raw then none
  else
    match idxOfCh ')' raw with
    | none => none
    | some closeIdx =>
      let head := (raw.drop 2).take (closeIdx - 2)
      match splitCSV head with
      | fmt :: ws :: hs :: ms :: _ =>
        match atoiZ (trimSpace ws), atoiZ (trimSpace hs), atoiZ (trimSpace ms) with
        | some w, some h, some mip =>
          let remain := trimSpace (raw.drop (closeIdx + 1))
          if remain = [] then none
          else
            match parseFunc remain with
            | none => none
            | some (fn, args) =>
              some (parseProceduralArgs
                ⟨none, none, none, trimSpace fmt, fn, args, w, h, mip⟩)
        | _, _, _ => none
      | _ => none

/-- ParseTextureRef parses a texture reference string. -/
def ParseTextureRef (raw0 : Str) : TextureRef :=
  let raw := NormalizeTextureRaw raw0
  if (("#(" : String)).data.isPrefixOf raw then
    match parseProcedural raw with
    | some pt => ⟨some pt, raw, .procedural, true⟩
    | none => ⟨none, raw, .procedural, false⟩
  else ⟨none, raw, .path, false⟩

/-! ## Material data model -/

/-- UVTransform represents uvTransform or TexGen transform. -/
structure UVTransform where
  aside : List ℚ
  up : List ℚ
  dir : List ℚ
  pos : List ℚ
deriving DecidableEq

/-- Stage represents a StageX class. -/
structure Stage where
  name : Str
  texture : TextureRef
  uvSource : Str
  texGen : Str
  uvTransform : Option UVTransform
  extras : List Node
deriving DecidableEq

/-- TexGen represents a TexGenX class. -/
structure TexGen where
  name : Str
  base : Str
  uvSource : Str
  uvTransform : Option UVTransform
  extras : List Node
deriving DecidableEq

/-- Material represents a parsed RVMAT file. -/
structure Material where
  ambient : List ℚ
  diffuse : List ℚ
  forcedDiffuse : List ℚ
  emmisive : List ℚ
  specular : List ℚ
  specularPower : Option ℚ
  pixelShaderID : Str
  vertexShaderID : Str
  stages : List Stage
  texGens : List TexGen
  extras : List Node
deriving DecidableEq

/-- The empty Material (`&Material{}`). -/
def Material.empty : Material := ⟨[], [], [], [], [], none, [], [], [], [], []⟩

instance {ε α : Type} [DecidableEq ε] [DecidableEq α] : DecidableEq (Except ε α) :=
  fun a b =>
    match a, b with
    | .ok x, .ok y =>
      if h : x = y then isTrue (by rw [h]) else isFalse (by simp [h])
    | .error e, .error f =>
      if h : e = f then isTrue (by rw [h]) else isFalse (by simp [h])
    | .ok _, .error _ => isFalse (by simp)
    | .error _, .ok _ => isFalse (by simp)

/-! ## Parser

The parser is a model of the Go recursive-descent parser over the
pre-lexed token list.  An exhausted token list behaves like the lexer's
endless EOF tokens.  The source's `for` loops become `...Seq` helper
functions; the `if hlt : ...` guards at self-recursive call sites only
assert that the loop body consumed at least one token, which is true on
every success path (the `else` branches are unreachable). -/

/-- The EOF token the model hands out when the token list is exhausted. -/
def eofTok : Tok := ⟨.eof, [], 0, 0⟩

/-- next: take the next token (EOF forever once exhausted). -/
def nextT : List Tok → Tok × List Tok
  | [] => (eofTok, [])
  | t :: r => (t, r)

/-- peek: the next token without consuming it. -/
def peekT (ts : List Tok) : Tok := (nextT ts).1

/-- errorf: a parse error at a token's position. -/
def perr (t : Tok) (msg : Str) : RErr := .parse t.line t.col msg

/-- expect expects a token of the given type. -/
def expectT (tt : TokType) (ts : List Tok) : Except RErr (Tok × List Tok) :=
  let p := nextT ts
  if p.1.t = tt then .ok p
  else .error (perr p.1 ((("expected " : String)).data ++ tokenName tt))

theorem expectT_ok_cons {tt : TokType} (htt : tt ≠ TokType.eof) {ts : List Tok}
    {tok : Tok} {r : List Tok} (h : expectT tt ts = .ok (tok, r)) :
    ts = tok :: r ∧ tok.t = tt := by
  cases ts with
  | nil =>
    simp only [expectT, nextT] at h
    split at h
    · rename_i he
      exact absurd he.symm (by simpa [eofTok] using htt)
    · simp at h
  | cons a as =>
    simp only [expectT, nextT] at h
    split at h
    · rename_i he
      simp only [Except.ok.injEq, Prod.mk.injEq] at h
      exact ⟨by rw [h.1, h.2], h.1 ▸ he⟩
    · simp at h

/-- equalFold checks string equality honouring the case-insensitivity
option. -/
def equalFoldOpt (a b : Str) (opt : ParseOptions) : Bool :=
  if !opt.disableCaseInsensitive then eqFold a b else a = b

/-- isStageName checks if the name is a stage name. -/
def isStageName (name : Str) (opt : ParseOptions) : Bool :=
  hasPrefixKey name (("stage" : String)).data (!opt.disableCaseInsensitive)

/-- isTexGenName checks if the name is a texture generator name. -/
def isTexGenName (name : Str) (opt : ParseOptions) : Bool :=
  hasPrefixKey name (("texgen" : String)).data (!opt.disableCaseInsensitive)

/-- Strip trailing `'.'` characters. -/
def dropTrailingDots (s : Str) : Str :=
  (s.reverse.dropWhile fun c => c = '.').reverse

/-- parseNumberToken parses a number token: number literals parse directly;
strings/identifiers are trimmed, trailing dots stripped, then parsed.
Returns `(0, false)` on failure. -/
def parseNumberToken (tok : Tok) : ℚ × Bool :=
  match tok.t with
  | .number =>
    match parseFloatQ tok.lit with
    | some f => (f, true)
    | none => (0, false)
  | .str =>
    let s := dropTrailingDots (trimSpace tok.lit)
    if s = [] then (0, false)
    else
      match parseFloatQ s with
      | some f => (f, true)
      | none => (0, false)
  | .ident =>
    let s := dropTrailingDots (trimSpace tok.lit)
    if s = [] then (0, false)
    else
      match parseFloatQ s with
      | some f => (f, true)
      | none => (0, false)
  | _ => (0, false)

mutual

/-- parseValue parses a value: number, string, identifier or array.
Fueled: each recursion level consumes at least one token, so the wrapper
below supplies ample fuel and the out-of-fuel branch is unreachable from
it. -/
def parseValueF : ℕ → List Tok → Except RErr (Value × List Tok)
  | 0, ts => .error (perr (peekT ts) (("out of fuel" : String)).data)
  | _ + 1, [] => .error (perr eofTok (("unexpected token" : String)).data)
  | fuel + 1, tok :: ts1 =>
    match tok.t with
    | .number =>
      match parseFloatQ tok.lit with
      | some f => .ok (.num f, ts1)
      | none => .error (perr tok (("invalid number" : String)).data)
    | .str => .ok (.str tok.lit, ts1)
    | .ident => .ok (.ident tok.lit, ts1)
    | .lbrace =>
      match parseArrayF fuel ts1 with
      | .ok p => .ok (.arr p.1, p.2)
      | .error e => .error e
    | _ => .error (perr tok (("unexpected token" : String)).data)

/-- parseArray parses the comma-separated elements of a generic array up to
and including the closing brace (fueled). -/
def parseArrayF : ℕ → List Tok → Except RErr (List Value × List Tok)
  | 0, ts => .error (perr (peekT ts) (("out of fuel" : String)).data)
  | fuel + 1, ts =>
    if (peekT ts).t = .rbrace then .ok ([], (nextT ts).2)
    else
      match parseValueF fuel ts with
      | .error e => .error e
      | .ok p =>
        if (peekT p.2).t = .comma then
          match parseArrayF fuel (nextT p.2).2 with
          | .ok q => .ok (p.1 :: q.1, q.2)
          | .error e => .error e
        else if (peekT p.2).t = .rbrace then .ok ([p.1], (nextT p.2).2)
        else .error (perr (peekT p.2) (("expected ',' or '\x7d' in array" : String)).data)

end

/-- parseValue parses a value: number, string, identifier or array. -/
def parseValue (ts : List Tok) : Except RErr (Value × List Tok) :=
  parseValueF (2 * ts.length + 1) ts

/-- parseNumASeq is the element loop of `parseNumberArrayWithRelax`
(fueled): reads tokens, converts each (substituting 0 when relaxed;
failing otherwise), up to and including the closing brace. -/
def parseNumASeqF (relaxed : Bool) : ℕ → List Tok → Except RErr (List ℚ × List Tok)
  | 0, ts => .error (perr (peekT ts) (("out of fuel" : String)).data)
  | fuel + 1, ts =>
    if (peekT ts).t = .rbrace then .ok ([], (nextT ts).2)
    else
      let numTok := (nextT ts).1
      let ts1 := (nextT ts).2
      let pf := parseNumberToken numTok
      if ¬pf.2 ∧ ¬relaxed then .error (perr numTok (("expected number" : String)).data)
      else
        let f := pf.1
        if (peekT ts1).t = .comma then
          match parseNumASeqF relaxed fuel (nextT ts1).2 with
          | .ok q => .ok (f :: q.1, q.2)
          | .error e => .error e
        else if (peekT ts1).t = .rbrace then .ok ([f], (nextT ts1).2)
        else .error (perr (peekT ts1) (("expected ',' or '\x7d' in array" : String)).data)

/-- parseNumASeq: the element loop of a number array, with ample fuel. -/
def parseNumASeq (relaxed : Bool) (ts : List Tok) : Except RErr (List ℚ × List Tok) :=
  parseNumASeqF relaxed (ts.length + 1) ts

/-- parseNumberArrayWithRelax parses a number array with relaxed parsing. -/
def parseNumberArrayWithRelax (relaxed : Bool) (ts : List Tok) :
    Except RErr (List ℚ × List Tok) :=
  match expectT .lbrace ts with
  | .error e => .error e
  | .ok p => parseNumASeq relaxed p.2

/-- parseNumberArray parses a number array under the parse options. -/
def parseNumberArray (opt : ParseOptions) (ts : List Tok) :
    Except RErr (List ℚ × List Tok) :=
  parseNumberArrayWithRelax (!opt.disableRelaxedNumbers) ts

/-- parseNumberValue parses a scalar number value. -/
def parseNumberValue (ts : List Tok) : Except RErr (ℚ × List Tok) :=
  match expectT .number ts with
  | .error e => .error e
  | .ok p =>
    let pf := parseNumberToken p.1
    if pf.2 then .ok (pf.1, p.2)
    else .error (perr p.1 (("invalid number" : String)).data)

/-- parseStringValue parses a string value (string or identifier token). -/
def parseStringValue (ts : List Tok) : Except RErr (Str × List Tok) :=
  let p := nextT ts
  match p.1.t with
  | .str => .ok (p.1.lit, p.2)
  | .ident => .ok (p.1.lit, p.2)
  | _ => .error (perr p.1 (("expected string" : String)).data)

/-- parseStringOrNumberValue parses a string or number value; under relaxed
numbers any token's literal is accepted. -/
def parseStringOrNumberValue (relaxed : Bool) (ts : List Tok) :
    Except RErr (Str × List Tok) :=
  let p := nextT ts
  match p.1.t with
  | .str => .ok (p.1.lit, p.2)
  | .ident => .ok (p.1.lit, p.2)
  | .number => .ok (p.1.lit, p.2)
  | _ =>
    if relaxed then .ok (p.1.lit, p.2)
    else .error (perr p.1 (("expected string" : String)).data)

/-- expectSemicolon expects a semicolon. -/
def expectSemicolon (ts : List Tok) : Except RErr (List Tok) :=
  (expectT .semicolon ts).map fun p => p.2

/-- parseAssign parses a generic assignment node. -/
def parseAssign (ts : List Tok) : Except RErr (Node × List Tok) :=
  match expectT .ident ts with
  | .error e => .error e
  | .ok pn =>
    let pBr : Except RErr (Bool × List Tok) :=
      if (peekT pn.2).t = .lbracket then
        (expectT .rbracket (nextT pn.2).2).map fun p => (true, p.2)
      else .ok (false, pn.2)
    match pBr with
    | .error e => .error e
    | .ok pb =>
      match expectT .equal pb.2 with
      | .error e => .error e
      | .ok pe =>
        match parseValue pe.2 with
        | .error e => .error e
        | .ok pv =>
          (expectT .semicolon pv.2).map fun p =>
            (Node.assign pn.1.lit pb.1 pv.1, p.2)

mutual

/-- parseNode parses a node: class block or assignment (fueled). -/
def parseNodeF : ℕ → List Tok → Except RErr (Node × List Tok)
  | 0, ts => .error (perr (peekT ts) (("out of fuel" : String)).data)
  | fuel + 1, ts =>
    if (peekT ts).t = .kclass then parseClassF fuel ts else parseAssign ts

/-- parseClass parses a generic class block (fueled). -/
def parseClassF : ℕ → List Tok → Except RErr (Node × List Tok)
  | 0, ts => .error (perr (peekT ts) (("out of fuel" : String)).data)
  | fuel + 1, ts =>
    match expectT .kclass ts with
    | .error e => .error e
    | .ok pc =>
      match expectT .ident pc.2 with
      | .error e => .error e
      | .ok pn =>
        let pBase : Except RErr (Str × List Tok) :=
          if (peekT pn.2).t = .colon then
            (expectT .ident (nextT pn.2).2).map fun p => (p.1.lit, p.2)
          else .ok ([], pn.2)
        match pBase with
        | .error e => .error e
        | .ok pb =>
          match expectT .lbrace pb.2 with
          | .error e => .error e
          | .ok pl =>
            match parseNodeSeqF fuel pl.2 with
            | .error e => .error e
            | .ok pbody =>
              (expectT .semicolon pbody.2).map fun p =>
                (Node.cls pn.1.lit pb.1 pbody.1, p.2)

/-- parseNodeSeq is the body loop of a generic class: nodes up to and
including the closing brace (fueled). -/
def parseNodeSeqF : ℕ → List Tok → Except RErr (List Node × List Tok)
  | 0, ts => .error (perr (peekT ts) (("out of fuel" : String)).data)
  | fuel + 1, ts =>
    if (peekT ts).t = .rbrace then .ok ([], (nextT ts).2)
    else
      match parseNodeF fuel ts with
      | .error e => .error e
      | .ok p =>
        match parseNodeSeqF fuel p.2 with
        | .ok q => .ok (p.1 :: q.1, q.2)
        | .error e => .error e

end

/-- parseNodeSeq: the body loop of a generic class, with ample fuel. -/
def parseNodeSeq (ts : List Tok) : Except RErr (List Node × List Tok) :=
  parseNodeSeqF (2 * ts.length + 3) ts

/-- parseClassBody parses the body of a class with a known header. -/
def parseClassBody (name base : Str) (ts : List Tok) :
    Except RErr (Node × List Tok) :=
  match expectT .lbrace ts with
  | .error e => .error e
  | .ok pl =>
    match parseNodeSeq pl.2 with
    | .error e => .error e
    | .ok pbody =>
      (expectT .semicolon pbody.2).map fun p =>
        (Node.cls name base pbody.1, p.2)

/-- parseUVSeq is the body loop of a uvTransform (fueled): named number
arrays; the recognised names fill the corresponding vector, anything else
is parsed and discarded. -/
def parseUVSeqF (opt : ParseOptions) : ℕ → UVTransform → List Tok →
    Except RErr (UVTransform × List Tok)
  | 0, _, ts => .error (perr (peekT ts) (("out of fuel" : String)).data)
  | fuel + 1, uv, ts =>
    if (peekT ts).t = .rbrace then .ok (uv, (nextT ts).2)
    else
      match expectT .ident ts with
      | .error e => .error e
      | .ok pn =>
        let pBr : Except RErr (List Tok) :=
          if (peekT pn.2).t = .lbracket then
            (expectT .rbracket (nextT pn.2).2).map fun p => p.2
          else .ok pn.2
        match pBr with
        | .error e => .error e
        | .ok ts2 =>
          match expectT .equal ts2 with
          | .error e => .error e
          | .ok pe =>
            match parseNumberArray opt pe.2 with
            | .error e => .error e
            | .ok pa =>
              let ci := !opt.disableCaseInsensitive
              let uv' :=
                if matchKey pn.1.lit (("aside" : String)).data ci then
                  UVTransform.mk pa.1 uv.up uv.dir uv.pos
                else if matchKey pn.1.lit (("up" : String)).data ci then
                  UVTransform.mk uv.aside pa.1 uv.dir uv.pos
                else if matchKey pn.1.lit (("dir" : String)).data ci then
                  UVTransform.mk uv.aside uv.up pa.1 uv.pos
                else if matchKey pn.1.lit (("pos" : String)).data ci then
                  UVTransform.mk uv.aside uv.up uv.dir pa.1
                else uv
              match expectSemicolon pa.2 with
              | .error e => .error e
              | .ok ts4 => parseUVSeqF opt fuel uv' ts4

/-- parseUVSeq: the body loop of a uvTransform, with ample fuel. -/
def parseUVSeq (opt : ParseOptions) (uv : UVTransform) (ts : List Tok) :
    Except RErr (UVTransform × List Tok) :=
  parseUVSeqF opt (ts.length + 1) uv ts

/-- parseUVTransformBody parses the body of a uvTransform class. -/
def parseUVTransformBody (opt : ParseOptions) (ts : List Tok) :
    Except RErr (UVTransform × List Tok) :=
  match expectT .lbrace ts with
  | .error e => .error e
  | .ok pl =>
    match parseUVSeq opt (UVTransform.mk [] [] [] []) pl.2 with
    | .error e => .error e
    | .ok pu =>
      (expectT .semicolon pu.2).map fun p => (pu.1, p.2)

/-- parseStageClass parses a class inside a stage body: a baseless
`uvTransform` fills the stage's transform, anything else becomes a generic
extra node. -/
def parseStageClass (opt : ParseOptions) (st : Stage) (ts : List Tok) :
    Except RErr (Stage × List Tok) :=
  match expectT .kclass ts with
  | .error e => .error e
  | .ok pc =>
    match expectT .ident pc.2 with
    | .error e => .error e
    | .ok pn =>
      let pBase : Except RErr (Str × List Tok) :=
        if (peekT pn.2).t = .colon then
          (expectT .ident (nextT pn.2).2).map fun p => (p.1.lit, p.2)
        else .ok ([], pn.2)
      match pBase with
      | .error e => .error e
      | .ok pb =>
        if equalFoldOpt pn.1.lit (("uvTransform" : String)).data opt ∧ pb.1 = [] then
          match parseUVTransformBody opt pb.2 with
          | .error e => .error e
          | .ok pu =>
            .ok (Stage.mk st.name st.texture st.uvSource st.texGen (some pu.1) st.extras, pu.2)
        else
          match parseClassBody pn.1.lit pb.1 pb.2 with
          | .error e => .error e
          | .ok pcn =>
            .ok (Stage.mk st.name st.texture st.uvSource st.texGen st.uvTransform
              (st.extras ++ [pcn.1]), pcn.2)

/-- parseStageAssign parses an assignment inside a stage body: texture,
uvSource and texGen are captured; anything else becomes an extra node. -/
def parseStageAssign (opt : ParseOptions) (st : Stage) (ts : List Tok) :
    Except RErr (Stage × List Tok) :=
  match expectT .ident ts with
  | .error e => .error e
  | .ok pn =>
    let pBr : Except RErr (Bool × List Tok) :=
      if (peekT pn.2).t = .lbracket then
        (expectT .rbracket (nextT pn.2).2).map fun p => (true, p.2)
      else .ok (false, pn.2)
    match pBr with
    | .error e => .error e
    | .ok pb =>
      match expectT .equal pb.2 with
      | .error e => .error e
      | .ok pe =>
        let ci := !opt.disableCaseInsensitive
        if ¬pb.1 ∧ matchKey pn.1.lit (("texture" : String)).data ci then
          match parseStringValue pe.2 with
          | .error e => .error e
          | .ok ps =>
            match expectSemicolon ps.2 with
            | .error e => .error e
            | .ok r =>
              .ok (Stage.mk st.name (ParseTextureRef ps.1) st.uvSource st.texGen
                st.uvTransform st.extras, r)
        else if ¬pb.1 ∧ matchKey pn.1.lit (("uvsource" : String)).data ci then
          match parseStringValue pe.2 with
          | .error e => .error e
          | .ok ps =>
            match expectSemicolon ps.2 with
            | .error e => .error e
            | .ok r =>
              .ok (Stage.mk st.name st.texture ps.1 st.texGen st.uvTransform st.extras, r)
        else if ¬pb.1 ∧ matchKey pn.1.lit (("texgen" : String)).data ci then
          match parseStringOrNumberValue (!opt.disableRelaxedNumbers) pe.2 with
          | .error e => .error e
          | .ok ps =>
            match expectSemicolon ps.2 with
            | .error e => .error e
            | .ok r =>
              .ok (Stage.mk st.name st.texture st.uvSource ps.1 st.uvTransform st.extras, r)
        else
          match parseValue pe.2 with
          | .error e => .error e
          | .ok pv =>
            match expectSemicolon pv.2 with
            | .error e => .error e
            | .ok r =>
              .ok (Stage.mk st.name st.texture st.uvSource st.texGen st.uvTransform
                (st.extras ++ [Node.assign pn.1.lit pb.1 pv.1]), r)

/-- parseStageSeq is the body loop of a stage (fueled). -/
def parseStageSeqF (opt : ParseOptions) : ℕ → Stage → List Tok →
    Except RErr (Stage × List Tok)
  | 0, _, ts => .error (perr (peekT ts) (("out of fuel" : String)).data)
  | fuel + 1, st, ts =>
    if (peekT ts).t = .rbrace then .ok (st, (nextT ts).2)
    else if (peekT ts).t = .kclass then
      match parseStageClass opt st ts with
      | .error e => .error e
      | .ok p => parseStageSeqF opt fuel p.1 p.2
    else
      match parseStageAssign opt st ts with
      | .error e => .error e
      | .ok p => parseStageSeqF opt fuel p.1 p.2

/-- parseStageSeq: the body loop of a stage, with ample fuel. -/
def parseStageSeq (opt : ParseOptions) (st : Stage) (ts : List Tok) :
    Except RErr (Stage × List Tok) :=
  parseStageSeqF opt (ts.length + 1) st ts

/-- parseStageBody parses the body of a stage. -/
def parseStageBody (opt : ParseOptions) (name : Str) (ts : List Tok) :
    Except RErr (Stage × List Tok) :=
  match expectT .lbrace ts with
  | .error e => .error e
  | .ok pl =>
    match parseStageSeq opt (Stage.mk name TextureRef.zero [] [] none []) pl.2 with
    | .error e => .error e
    | .ok ps =>
      (expectT .semicolon ps.2).map fun p => (ps.1, p.2)

/-- parseTexGenClass parses a class inside a texgen body. -/
def parseTexGenClass (opt : ParseOptions) (tg : TexGen) (ts : List Tok) :
    Except RErr (TexGen × List Tok) :=
  match expectT .kclass ts with
  | .error e => .error e
  | .ok pc =>
    match expectT .ident pc.2 with
    | .error e => .error e
    | .ok pn =>
      let pBase : Except RErr (Str × List Tok) :=
        if (peekT pn.2).t = .colon then
          (expectT .ident (nextT pn.2).2).map fun p => (p.1.lit, p.2)
        else .ok ([], pn.2)
      match pBase with
      | .error e => .error e
      | .ok pb =>
        if equalFoldOpt pn.1.lit (("uvTransform" : String)).data opt ∧ pb.1 = [] then
          match parseUVTransformBody opt pb.2 with
          | .error e => .error e
          | .ok pu =>
            .ok (TexGen.mk tg.name tg.base tg.uvSource (some pu.1) tg.extras, pu.2)
        else
          match parseClassBody pn.1.lit pb.1 pb.2 with
          | .error e => .error e
          | .ok pcn =>
            .ok (TexGen.mk tg.name tg.base tg.uvSource tg.uvTransform
              (tg.extras ++ [pcn.1]), pcn.2)

/-- parseTexGenAssign parses an assignment inside a texgen body: uvSource is
captured; anything else becomes an extra node. -/
def parseTexGenAssign (opt : ParseOptions) (tg : TexGen) (ts : List Tok) :
    Except RErr (TexGen × List Tok) :=
  match expectT .ident ts with
  | .error e => .error e
  | .ok pn =>
    let pBr : Except RErr (Bool × List Tok) :=
      if (peekT pn.2).t = .lbracket then
        (expectT .rbracket (nextT pn.2).2).map fun p => (true, p.2)
      else .ok (false, pn.2)
    match pBr with
    | .error e => .error e
    | .ok pb =>
      match expectT .equal pb.2 with
      | .error e => .error e
      | .ok pe =>
        let ci := !opt.disableCaseInsensitive
        if ¬pb.1 ∧ matchKey pn.1.lit (("uvsource" : String)).data ci then
          match parseStringValue pe.2 with
          | .error e => .error e
          | .ok ps =>
            match expectSemicolon ps.2 with
            | .error e => .error e
            | .ok r =>
              .ok (TexGen.mk tg.name tg.base ps.1 tg.uvTransform tg.extras, r)
        else
          match parseValue pe.2 with
          | .error e => .error e
          | .ok pv =>
            match expectSemicolon pv.2 with
            | .error e => .error e
            | .ok r =>
              .ok (TexGen.mk tg.name tg.base tg.uvSource tg.uvTransform
                (tg.extras ++ [Node.assign pn.1.lit pb.1 pv.1]), r)

/-- parseTexGenSeq is the body loop of a texture generator (fueled). -/
def parseTexGenSeqF (opt : ParseOptions) : ℕ → TexGen → List Tok →
    Except RErr (TexGen × List Tok)
  | 0, _, ts => .error (perr (peekT ts) (("out of fuel" : String)).data)
  | fuel + 1, tg, ts =>
    if (peekT ts).t = .rbrace then .ok (tg, (nextT ts).2)
    else if (peekT ts).t = .kclass then
      match parseTexGenClass opt tg ts with
      | .error e => .error e
      | .ok p => parseTexGenSeqF opt fuel p.1 p.2
    else
      match parseTexGenAssign opt tg ts with
      | .error e => .error e
      | .ok p => parseTexGenSeqF opt fuel p.1 p.2

/-- parseTexGenSeq: the body loop of a texture generator, with ample fuel. -/
def parseTexGenSeq (opt : ParseOptions) (tg : TexGen) (ts : List Tok) :
    Except RErr (TexGen × List Tok) :=
  parseTexGenSeqF opt (ts.length + 1) tg ts

/-- parseTexGenBody parses the body of a texture generator. -/
def parseTexGenBody (opt : ParseOptions) (name base : Str) (ts : List Tok) :
    Except RErr (TexGen × List Tok) :=
  match expectT .lbrace ts with
  | .error e => .error e
  | .ok pl =>
    match parseTexGenSeq opt (TexGen.mk name base [] none []) pl.2 with
    | .error e => .error e
    | .ok ps =>
      (expectT .semicolon ps.2).map fun p => (ps.1, p.2)

/-- parseTopClass parses a top-level class: a baseless `StageX` becomes a
Stage, a `TexGenX` (with or without base) a TexGen, anything else a generic
extra class node. -/
def parseTopClass (opt : ParseOptions) (m : Material) (ts : List Tok) :
    Except RErr (Material × List Tok) :=
  match expectT .kclass ts with
  | .error e => .error e
  | .ok pc =>
    match expectT .ident pc.2 with
    | .error e => .error e
    | .ok pn =>
      let pBase : Except RErr (Str × List Tok) :=
        if (peekT pn.2).t = .colon then
          (expectT .ident (nextT pn.2).2).map fun p => (p.1.lit, p.2)
        else .ok ([], pn.2)
      match pBase with
      | .error e => .error e
      | .ok pb =>
        if isStageName pn.1.lit opt ∧ pb.1 = [] then
          match parseStageBody opt pn.1.lit pb.2 with
          | .error e => .error e
          | .ok ps =>
            .ok (Material.mk m.ambient m.diffuse m.forcedDiffuse m.emmisive m.specular
              m.specularPower m.pixelShaderID m.vertexShaderID (m.stages ++ [ps.1])
              m.texGens m.extras, ps.2)
        else if isTexGenName pn.1.lit opt then
          match parseTexGenBody opt pn.1.lit pb.1 pb.2 with
          | .error e => .error e
          | .ok pt =>
            .ok (Material.mk m.ambient m.diffuse m.forcedDiffuse m.emmisive m.specular
              m.specularPower m.pixelShaderID m.vertexShaderID m.stages
              (m.texGens ++ [pt.1]) m.extras, pt.2)
        else
          match parseClassBody pn.1.lit pb.1 pb.2 with
          | .error e => .error e
          | .ok pcn =>
            .ok (Material.mk m.ambient m.diffuse m.forcedDiffuse m.emmisive m.specular
              m.specularPower m.pixelShaderID m.vertexShaderID m.stages m.texGens
              (m.extras ++ [pcn.1]), pcn.2)

/-- Update one of the five color fields by (case-folded) name. -/
def setColorField (m : Material) (name : Str) (ci : Bool) (vals : List ℚ) : Material :=
  if matchKey name (("ambient" : String)).data ci then
    Material.mk vals m.diffuse m.forcedDiffuse m.emmisive m.specular m.specularPower
      m.pixelShaderID m.vertexShaderID m.stages m.texGens m.extras
  else if matchKey name (("diffuse" : String)).data ci then
    Material.mk m.ambient vals m.forcedDiffuse m.emmisive m.specular m.specularPower
      m.pixelShaderID m.vertexShaderID m.stages m.texGens m.extras
  else if matchKey name (("forceddiffuse" : String)).data ci then
    Material.mk m.ambient m.diffuse vals m.emmisive m.specular m.specularPower
      m.pixelShaderID m.vertexShaderID m.stages m.texGens m.extras
  else if matchKey name (("emmisive" : String)).data ci then
    Material.mk m.ambient m.diffuse m.forcedDiffuse vals m.specular m.specularPower
      m.pixelShaderID m.vertexShaderID m.stages m.texGens m.extras
  else if matchKey name (("specular" : String)).data ci then
    Material.mk m.ambient m.diffuse m.forcedDiffuse m.emmisive vals m.specularPower
      m.pixelShaderID m.vertexShaderID m.stages m.texGens m.extras
  else m

/-- Whether a (folded) name is one of the five color array keys. -/
def isColorKey (name : Str) (ci : Bool) : Bool :=
  matchKey name (("ambient" : String)).data ci ||
  matchKey name (("diffuse" : String)).data ci ||
  matchKey name (("forceddiffuse" : String)).data ci ||
  matchKey name (("emmisive" : String)).data ci ||
  matchKey name (("specular" : String)).data ci

/-- parseTopAssign parses a top-level assignment: the typed color arrays,
specularPower and shader IDs are captured, anything else becomes an extra
node. -/
def parseTopAssign (opt : ParseOptions) (m : Material) (ts : List Tok) :
    Except RErr (Material × List Tok) :=
  match expectT .ident ts with
  | .error e => .error e
  | .ok pn =>
    let pBr : Except RErr (Bool × List Tok) :=
      if (peekT pn.2).t = .lbracket then
        (expectT .rbracket (nextT pn.2).2).map fun p => (true, p.2)
      else .ok (false, pn.2)
    match pBr with
    | .error e => .error e
    | .ok pb =>
      match expectT .equal pb.2 with
      | .error e => .error e
      | .ok pe =>
        let ci := !opt.disableCaseInsensitive
        if pb.1 ∧ isColorKey pn.1.lit ci then
          match parseNumberArray opt pe.2 with
          | .error e => .error e
          | .ok pa =>
            match expectSemicolon pa.2 with
            | .error e => .error e
            | .ok r => .ok (setColorField m pn.1.lit ci pa.1, r)
        else if ¬pb.1 ∧ matchKey pn.1.lit (("specularpower" : String)).data ci then
          match parseNumberValue pe.2 with
          | .error e => .error e
          | .ok pv =>
            match expectSemicolon pv.2 with
            | .error e => .error e
            | .ok r =>
              .ok (Material.mk m.ambient m.diffuse m.forcedDiffuse m.emmisive m.specular
                (some pv.1) m.pixelShaderID m.vertexShaderID m.stages m.texGens m.extras, r)
        else if ¬pb.1 ∧ matchKey pn.1.lit (("pixelshaderid" : String)).data ci then
          match parseStringValue pe.2 with
          | .error e => .error e
          | .ok ps =>
            match expectSemicolon ps.2 with
            | .error e => .error e
            | .ok r =>
              .ok (Material.mk m.ambient m.diffuse m.forcedDiffuse m.emmisive m.specular
                m.specularPower ps.1 m.vertexShaderID m.stages m.texGens m.extras, r)
        else if ¬pb.1 ∧ matchKey pn.1.lit (("vertexshaderid" : String)).data ci then
          match parseStringValue pe.2 with
          | .error e => .error e
          | .ok ps =>
            match expectSemicolon ps.2 with
            | .error e => .error e
            | .ok r =>
              .ok (Material.mk m.ambient m.diffuse m.forcedDiffuse m.emmisive m.specular
                m.specularPower m.pixelShaderID ps.1 m.stages m.texGens m.extras, r)
        else
          match parseValue pe.2 with
          | .error e => .error e
          | .ok pv =>
            match expectSemicolon pv.2 with
            | .error e => .error e
            | .ok r =>
              .ok (Material.mk m.ambient m.diffuse m.forcedDiffuse m.emmisive m.specular
                m.specularPower m.pixelShaderID m.vertexShaderID m.stages m.texGens
                (m.extras ++ [Node.assign pn.1.lit pb.1 pv.1]), r)

/-- parseMaterialSeq is the top-level loop (fueled): classes and
assignments until EOF. -/
def parseMaterialSeqF (opt : ParseOptions) : ℕ → Material → List Tok →
    Except RErr Material
  | 0, _, ts => .error (perr (peekT ts) (("out of fuel" : String)).data)
  | fuel + 1, m, ts =>
    if (peekT ts).t = .eof then .ok m
    else if (peekT ts).t = .kclass then
      match parseTopClass opt m ts with
      | .error e => .error e
      | .ok p => parseMaterialSeqF opt fuel p.1 p.2
    else
      match parseTopAssign opt m ts with
      | .error e => .error e
      | .ok p => parseMaterialSeqF opt fuel p.1 p.2

/-- parseMaterialSeq: the top-level loop, with ample fuel. -/
def parseMaterialSeq (opt : ParseOptions) (m : Material) (ts : List Tok) :
    Except RErr Material :=
  parseMaterialSeqF opt (ts.length + 1) m ts

/-- parseMaterial parses the material from the token stream. -/
def parseMaterial (opt : ParseOptions) (ts : List Tok) : Except RErr Material :=
  parseMaterialSeq opt Material.empty ts

/-- Decode parses a RVMAT from the input: reject binary input, tokenize,
parse. -/
def Decode (opt : Option ParseOptions) (input : Str) : Except RErr Material :=
  let popt := ParseOptions.normalize opt
  if isBinaryRVMAT input then .error .binary
  else
    match tokenize popt input with
    | .error e => .error e
    | .ok ts => parseMaterial popt ts

/-- Parse parses a RVMAT from bytes (same as Decode in the model). -/
def Parse (input : Str) (opt : Option ParseOptions) : Except RErr Material :=
  Decode opt input

/-! ## Writer -/

/-- The opening brace character. -/
def lbraceC : Char := Char.ofNat 123

/-- The closing brace character. -/
def rbraceC : Char := Char.ofNat 125

/-- indentFor: the indentation string for a nesting level (the Go writer
caches `strings.Repeat(indent, level)` per level). -/
def writeIndentStr (ind : Str) (level : ℕ) : Str :=
  if level = 0 then [] else (List.replicate level ind).flatten

/-- Join strings with a separator. -/
def sepJoin (sep : Str) : List Str → Str
  | [] => []
  | [x] => x
  | x :: rest => x ++ sep ++ sepJoin sep rest

/-- writeQuoted writes a quoted string (content copied verbatim). -/
def writeQuoted (s : Str) : Str := '"' :: (s ++ ['"'])

/-- writeFloatArray writes a brace-wrapped, comma-space separated float
array. -/
def writeFloatArrayStr (vals : List ℚ) : Str :=
  lbraceC :: (sepJoin ((", " : String)).data (vals.map fmtNum) ++ [rbraceC])

mutual

/-- writeValue writes a value (number, quoted string, bare identifier or
brace-wrapped array). -/
def writeValue : Value → Str
  | .num q => fmtNum q
  | .str s => writeQuoted s
  | .ident s => s
  | .arr vs => lbraceC :: (sepJoin ((", " : String)).data (writeValueList vs) ++ [rbraceC])

/-- The rendered elements of a value array. -/
def writeValueList : List Value → List Str
  | [] => []
  | v :: rest => writeValue v :: writeValueList rest

end

/-- writeAssign writes `name[]=value;` or `name=value;` with indentation. -/
def writeAssignStr (ind : Str) (level : ℕ) (name : Str) (val : Value)
    (isArray : Bool) : Str :=
  writeIndentStr ind level ++ name
    ++ (if isArray then (("[]=" : String)).data else (("=" : String)).data)
    ++ writeValue val ++ ((";\n" : String)).data

mutual

/-- writeNode writes a generic node (assignment or class block). -/
def writeNode (ind : Str) (level : ℕ) : Node → Str
  | .assign n a v => writeAssignStr ind level n v a
  | .cls n b body =>
    writeIndentStr ind level
      ++ (if b ≠ [] then
            (("class " : String)).data ++ n ++ ((" : " : String)).data ++ b
              ++ (("\n" : String)).data
          else (("class " : String)).data ++ n ++ (("\n" : String)).data)
      ++ writeIndentStr ind level ++ (lbraceC :: (("\n" : String)).data)
      ++ writeNodes ind (level + 1) body
      ++ writeIndentStr ind level ++ (rbraceC :: ((";\n" : String)).data)

/-- writeNodes writes a node list in order. -/
def writeNodes (ind : Str) (level : ℕ) : List Node → Str
  | [] => []
  | n :: rest => writeNode ind level n ++ writeNodes ind level rest

end

/-- writeUVTransform writes the nested `class uvTransform` block; each of
the four arrays only when non-empty. -/
def writeUVTransformStr (ind : Str) (level : ℕ) (uv : UVTransform) : Str :=
  let arrLine : Str → List ℚ → Str := fun name vals =>
    if vals ≠ [] then
      writeIndentStr ind (level + 1) ++ name ++ (("[]=" : String)).data
        ++ writeFloatArrayStr vals ++ ((";\n" : String)).data
    else []
  writeIndentStr ind level ++ (("class uvTransform\n" : String)).data
    ++ writeIndentStr ind level ++ (lbraceC :: (("\n" : String)).data)
    ++ arrLine (("aside" : String)).data uv.aside
    ++ arrLine (("up" : String)).data uv.up
    ++ arrLine (("dir" : String)).data uv.dir
    ++ arrLine (("pos" : String)).data uv.pos
    ++ writeIndentStr ind level ++ (rbraceC :: ((";\n" : String)).data)

/-- writeStage writes a stage class: texture, then uvSource only without a
texGen, then texGen, then uvTransform only without a texGen, then extras. -/
def writeStageStr (ind : Str) (s : Stage) : Str :=
  let name := if s.name = [] then (("Stage" : String)).data else s.name
  (("class " : String)).data ++ name ++ (("\n" : String)).data
    ++ (lbraceC :: (("\n" : String)).data)
    ++ (if s.texture.raw ≠ [] then
          writeAssignStr ind 1 (("texture" : String)).data (Value.str s.texture.raw) false
        else [])
    ++ (if s.uvSource ≠ [] ∧ s.texGen = [] then
          writeAssignStr ind 1 (("uvSource" : String)).data (Value.str s.uvSource) false
        else [])
    ++ (if s.texGen ≠ [] then
          writeAssignStr ind 1 (("texGen" : String)).data (Value.str s.texGen) false
        else [])
    ++ (match s.uvTransform with
        | some uv => if s.texGen = [] then writeUVTransformStr ind 1 uv else []
        | none => [])
    ++ writeNodes ind 1 s.extras
    ++ (rbraceC :: ((";\n" : String)).data)

/-- writeTexGen writes a texture generator class. -/
def writeTexGenStr (ind : Str) (t : TexGen) : Str :=
  let name := if t.name = [] then (("TexGen" : String)).data else t.name
  (if t.base ≠ [] then
      (("class " : String)).data ++ name ++ ((" : " : String)).data ++ t.base
        ++ (("\n" : String)).data
    else (("class " : String)).data ++ name ++ (("\n" : String)).data)
    ++ (lbraceC :: (("\n" : String)).data)
    ++ (if t.uvSource ≠ [] then
          writeAssignStr ind 1 (("uvSource" : String)).data (Value.str t.uvSource) false
        else [])
    ++ (match t.uvTransform with
        | some uv => writeUVTransformStr ind 1 uv
        | none => [])
    ++ writeNodes ind 1 t.extras
    ++ (rbraceC :: ((";\n" : String)).data)

/-- writeMaterial writes a Material in the canonical fixed order: color
arrays, specular power, shader IDs, texgens, stages, extras. -/
def writeMaterialStr (ind : Str) (m : Material) : Str :=
  let colorLine : Str → List ℚ → Str := fun name vals =>
    if vals = [] then []
    else name ++ (("[]=" : String)).data ++ writeFloatArrayStr vals
      ++ ((";\n" : String)).data
  colorLine (("ambient" : String)).data m.ambient
    ++ colorLine (("diffuse" : String)).data m.diffuse
    ++ colorLine (("forcedDiffuse" : String)).data m.forcedDiffuse
    ++ colorLine (("emmisive" : String)).data m.emmisive
    ++ colorLine (("specular" : String)).data m.specular
    ++ (match m.specularPower with
        | some q => (("specularPower=" : String)).data ++ fmtNum q ++ ((";\n" : String)).data
        | none => [])
    ++ (if m.pixelShaderID ≠ [] then
          (("PixelShaderID=" : String)).data ++ writeQuoted m.pixelShaderID
            ++ ((";\n" : String)).data
        else [])
    ++ (if m.vertexShaderID ≠ [] then
          (("VertexShaderID=" : String)).data ++ writeQuoted m.vertexShaderID
            ++ ((";\n" : String)).data
        else [])
    ++ (m.texGens.map (writeTexGenStr ind)).flatten
    ++ (m.stages.map (writeStageStr ind)).flatten
    ++ writeNodes ind 0 m.extras

/-- Format renders a Material to bytes with the normalized options. -/
def Format (m : Material) (opt : Option FormatOptions) : Str :=
  writeMaterialStr (FormatOptions.normalize opt).indent m

/-! ## Validator

The known shader/stage-name tables (validate_lists.go, not part of the
core) and the filesystem (path resolution against the game root, and
`os.Stat`) are external collaborators; they are passed in as explicit
parameters. -/

/-- IssueLevel represents severity of a validation issue. -/
inductive IssueLevel where
  | error | warning
deriving DecidableEq

/-- Issue represents a validation issue. -/
structure Issue where
  level : IssueLevel
  code : Str
  message : Str
  path : Str
deriving DecidableEq

/-- ValidateOptions controls validation rules. -/
structure ValidateOptions where
  gameRoot : Str
  excludePaths : List Str
  disableFileCheck : Bool
  disableExtensionsCheck : Bool
  disableShaderNameCheck : Bool
deriving DecidableEq

/-- normalize: nil gets file checks disabled; an empty game root disables
file checks. -/
def ValidateOptions.normalize : Option ValidateOptions → ValidateOptions
  | none => ⟨[], [], true, false, false⟩
  | some o =>
    if o.gameRoot = [] then
      ⟨o.gameRoot, o.excludePaths, true, o.disableExtensionsCheck, o.disableShaderNameCheck⟩
    else o

/-- validateColor: a non-empty color array must have exactly 4 components. -/
def validateColor (name : Str) (vals : List ℚ) : List Issue :=
  if vals = [] then []
  else if vals.length ≠ 4 then
    [⟨.error, [], (("color must have 4 components" : String)).data, name⟩]
  else []

/-- filepath.Ext: the suffix beginning at the final dot in the final path
element. -/
def extOf (path : Str) : Str :=
  let revTail := path.reverse.takeWhile fun c => c ≠ '/'
  match idxOfCh '.' revTail with
  | none => []
  | some i => (revTail.take (i + 1)).reverse

/-- hasAllowedExt checks the extension against `.paa/.pax/.tga`
(case-insensitive). -/
def hasAllowedExt (path : Str) : Bool :=
  let ext := toLowerStr (extOf path)
  ext = ((".paa" : String)).data || ext = ((".pax" : String)).data ||
    ext = ((".tga" : String)).data

/-- normalizePathForMatch lowercases and normalizes separators to `\`. -/
def normalizePathForMatch (p : Str) : Str :=
  toLowerStr ((trimSpace p).map fun c => if c = '/' then '\\' else c)

/-- shouldExcludePath checks exclusion patterns (exact, or trailing-`*`
prefix match). -/
def shouldExcludePath (path : Str) (patterns : List Str) : Bool :=
  if patterns = [] then false
  else
    patterns.any fun p =>
      if p = [] then false
      else
        let pp := normalizePathForMatch p
        let norm := normalizePathForMatch path
        if pp.getLast? = some '*' then (pp.take (pp.length - 1)).isPrefixOf norm
        else norm = pp

/-- The per-stage texture checks (extension, `..`, file existence). -/
def stageTextureIssues (vopt : ValidateOptions) (resolvePath : Str → Str → Str)
    (fileExists : Str → Bool) (st : Stage) : List Issue :=
  if st.texture.raw = [] ∨ st.texture.IsProcedural then []
  else
    (if !vopt.disableExtensionsCheck ∧ ¬hasAllowedExt st.texture.raw then
        [⟨.warning, [], (("unexpected texture extension" : String)).data, st.texture.raw⟩]
      else [])
    ++ (if ((".." : String)).data <:+: st.texture.raw then
          [⟨.warning, [], (("texture path contains '..'" : String)).data, st.texture.raw⟩]
        else [])
    ++ (if !vopt.disableFileCheck then
          if shouldExcludePath st.texture.raw vopt.excludePaths then []
          else
            let p := resolvePath vopt.gameRoot st.texture.raw
            if p ≠ [] ∧ ¬fileExists p then
              [⟨.warning, (("missing_resource" : String)).data,
                (("texture file not found" : String)).data, p⟩]
            else []
        else [])

/-- The per-stage name and UV-wiring checks. -/
def stageUVIssues (vopt : ValidateOptions) (knownStages : List Str) (st : Stage) :
    List Issue :=
  (if !vopt.disableShaderNameCheck ∧ st.name ∉ knownStages then
      [⟨.warning, [], (("unknown Stage name" : String)).data, st.name⟩]
    else [])
  ++ (if st.name = (("StageTI" : String)).data ∨ st.name = (("Stage0" : String)).data then []
      else if st.uvSource = (("none" : String)).data ∨
          st.uvSource = (("WorldPos" : String)).data then []
      else if st.texGen ≠ [] then []
      else if st.uvSource = [] ∧ st.uvTransform = none then
        [⟨.warning, [], (("stage without texGen missing uvSource" : String)).data, st.name⟩,
         ⟨.warning, [], (("stage without texGen missing uvTransform" : String)).data, st.name⟩]
      else if st.uvTransform = none then
        [⟨.warning, [], (("stage without texGen missing uvTransform" : String)).data, st.name⟩]
      else [])

/-- The duplicate-stage-name loop: one error per repeated non-empty name
after its first occurrence. -/
def dupStageIssues (seen : List Str) : List Stage → List Issue
  | [] => []
  | st :: rest =>
    if st.name = [] then dupStageIssues seen rest
    else if st.name ∈ seen then
      ⟨.error, [], (("duplicate Stage name" : String)).data, st.name⟩ :: dupStageIssues seen rest
    else dupStageIssues (st.name :: seen) rest

/-- Validate validates a material and returns issues, in check order. -/
def Validate (knownPixel knownVertex knownStages : List Str)
    (resolvePath : Str → Str → Str) (fileExists : Str → Bool)
    (m : Material) (opt : Option ValidateOptions) : List Issue :=
  let vopt := ValidateOptions.normalize opt
  (if m.stages.length > 0 then
      (if m.pixelShaderID = [] then
          [⟨.warning, [], (("PixelShaderID missing" : String)).data, []⟩]
        else [])
      ++ (if m.vertexShaderID = [] then
            [⟨.warning, [], (("VertexShaderID missing" : String)).data, []⟩]
          else [])
    else [])
  ++ (if !vopt.disableShaderNameCheck then
        (if m.pixelShaderID ≠ [] ∧ m.pixelShaderID ∉ knownPixel then
            [⟨.warning, [], (("unknown PixelShaderID" : String)).data, m.pixelShaderID⟩]
          else [])
        ++ (if m.vertexShaderID ≠ [] ∧ m.vertexShaderID ∉ knownVertex then
              [⟨.warning, [], (("unknown VertexShaderID" : String)).data, m.vertexShaderID⟩]
            else [])
      else [])
  ++ validateColor (("ambient" : String)).data m.ambient
  ++ validateColor (("diffuse" : String)).data m.diffuse
  ++ validateColor (("forcedDiffuse" : String)).data m.forcedDiffuse
  ++ validateColor (("emmisive" : String)).data m.emmisive
  ++ validateColor (("specular" : String)).data m.specular
  ++ (if !vopt.disableFileCheck ∨ !vopt.disableExtensionsCheck then
        (m.stages.map (stageTextureIssues vopt resolvePath fileExists)).flatten
      else [])
  ++ (m.stages.map (stageUVIssues vopt knownStages)).flatten
  ++ dupStageIssues [] m.stages


/-! ## Whitespace- and comment-only inputs (for the empty-material claim) -/

/-- Spec-side characterization of inputs that consist only of whitespace
and (when `ac` is set, i.e. comments enabled) comments: a `//` comment
body runs up to a newline (or to end of input), a `/* */` comment has a
body that does not contain the closing delimiter. -/
inductive Trivia : Bool → Str → Prop where
  | nil (ac : Bool) : Trivia ac []
  | ws (ac : Bool) (c : Char) (s : Str) : isSpaceCh c = true → Trivia ac s →
      Trivia ac (c :: s)
  | line (bo t : Str) : (∀ c ∈ bo, c ≠ '\n') → (t = [] ∨ t.head? = some '\n') →
      Trivia true t → Trivia true ('/' :: '/' :: (bo ++ t))
  | blk (bo t : Str) : ¬ ['*', '/'] <:+: bo → Trivia true t →
      Trivia true ('/' :: '*' :: (bo ++ '*' :: '/' :: t))

/-- `skipLine` scans over a newline-free comment body and stops exactly at
the trailing input (which is empty or starts with the newline). -/
theorem skipLineGo_pass :
    ∀ bo : Str, (∀ c ∈ bo, c ≠ '\n') → ∀ t : Str, (t = [] ∨ t.head? = some '\n') →
      ∀ l co : ℕ, ∃ l2 co2 : ℕ, skipLineGo (bo ++ t) l co = ⟨t, l2, co2⟩ := by
  intro bo
  induction bo with
  | nil =>
    intro _ t ht l co
    rcases ht with rfl | hh
    · exact ⟨l, co, rfl⟩
    · rcases t with _ | ⟨c, r⟩
      · simp at hh
      · simp only [List.head?, Option.some.injEq] at hh
        subst hh
        exact ⟨l, co, by rw [List.nil_append, skipLineGo, if_pos rfl]⟩
  | cons c bo ih =>
    intro hno t ht l co
    have hc : c ≠ '\n' := hno c (by simp)
    rw [List.cons_append, skipLineGo, if_neg hc]
    exact ih (fun d hd => hno d (by simp [hd])) t ht _ _

/-- `skipBlock` scans over a body with no `*/` and consumes the closing
delimiter, stopping exactly at the trailing input. -/
theorem skipBlockGo_pass :
    ∀ bo : Str, ¬ ['*', '/'] <:+: bo → ∀ t : Str, ∀ l co : ℕ,
      ∃ l2 co2 : ℕ, skipBlockGo (bo ++ '*' :: '/' :: t) l co = ⟨t, l2, co2⟩ := by
  intro bo
  induction bo with
  | nil =>
    intro _ t l co
    rw [List.nil_append, skipBlockGo, if_pos ⟨rfl, rfl⟩]
    exact ⟨_, _, rfl⟩
  | cons c bo ih =>
    intro hni t l co
    rw [List.cons_append, skipBlockGo]
    have hni' : ¬ ['*', '/'] <:+: bo := fun h => hni (h.trans (List.suffix_cons c bo).isInfix)
    rcases bo with _ | ⟨d, bo2⟩
    · rw [if_neg (fun hh => by simpa using hh.2)]
      exact ih hni' t _ _
    · by_cases hcd : c = '*' ∧ d = '/'
      · exact absurd ⟨[], bo2, by simp [hcd.1, hcd.2]⟩ hni
      · rw [if_neg (fun hh => hcd ⟨hh.1, by simpa using hh.2⟩)]
        exact ih hni' t _ _

/-- A whitespace/comment-only input is fully consumed by the
whitespace-skipping loop (stated for the fueled comment loop under any
sufficient fuel). -/
theorem trivia_skipComsF {ac : Bool} {s : Str} (h : Trivia ac s) :
    ∀ l co fuel : ℕ, (skipWs ⟨s, l, co⟩).inp.length < fuel →
      (skipComsF ac fuel (skipWs ⟨s, l, co⟩)).inp = [] := by
  induction h with
  | nil ac =>
    intro l co fuel hf
    simp only [skipWs, skipWsGo] at hf ⊢
    cases fuel with
    | zero => omega
    | succ f => rfl
  | ws ac c s hsp ht ih =>
    intro l co fuel hf
    rw [skipWs, skipWsGo, if_pos hsp] at hf ⊢
    exact ih _ _ fuel hf
  | line bo t hno hhd ht ih =>
    intro l co fuel hf
    have hns : isSpaceCh '/' = false := by decide
    rw [skipWs, skipWsGo, if_neg (by rw [hns]; simp)] at hf ⊢
    simp only [List.length_cons] at hf
    cases fuel with
    | zero => omega
    | succ f =>
      rw [skipComsF, if_pos ⟨rfl, rfl⟩,
        if_pos (show ('/' :: (bo ++ t)).head? = some '/' from rfl)]
      obtain ⟨L2, C2, hadv⟩ :
          ∃ L2 C2 : ℕ, LexSt.adv (LexSt.adv (⟨'/' :: '/' :: (bo ++ t), l, co⟩ : LexSt))
            = ⟨bo ++ t, L2, C2⟩ := ⟨_, _, rfl⟩
      rw [hadv, skipLine]
      obtain ⟨l2, co2, heq⟩ := skipLineGo_pass bo hno t hhd L2 C2
      rw [heq]
      refine ih l2 co2 f ?_
      have hle := skipWs_le ⟨t, l2, co2⟩
      dsimp only at hle
      simp only [List.length_append] at hf
      omega
  | blk bo t hni ht ih =>
    intro l co fuel hf
    have hns : isSpaceCh '/' = false := by decide
    rw [skipWs, skipWsGo, if_neg (by rw [hns]; simp)] at hf ⊢
    simp only [List.length_cons] at hf
    cases fuel with
    | zero => omega
    | succ f =>
      rw [skipComsF, if_pos ⟨rfl, rfl⟩, if_neg (by simp),
        if_pos (show ('*' :: (bo ++ '*' :: '/' :: t)).head? = some '*' from rfl)]
      obtain ⟨L2, C2, hadv⟩ :
          ∃ L2 C2 : ℕ, LexSt.adv (LexSt.adv
              (⟨'/' :: '*' :: (bo ++ '*' :: '/' :: t), l, co⟩ : LexSt))
            = ⟨bo ++ '*' :: '/' :: t, L2, C2⟩ := ⟨_, _, rfl⟩
      rw [hadv, skipBlock]
      obtain ⟨l2, co2, heq⟩ := skipBlockGo_pass bo hni t L2 C2
      rw [heq]
      refine ih l2 co2 f ?_
      have hle := skipWs_le ⟨t, l2, co2⟩
      dsimp only at hle
      simp only [List.length_append, List.length_cons] at hf
      omega

/-- A whitespace/comment-only input skips to end of input. -/
theorem trivia_skipWhitespace {ac : Bool} {s : Str} (h : Trivia ac s)
    (l co : ℕ) : (skipWhitespace ac ⟨s, l, co⟩).inp = [] :=
  trivia_skipComsF h l co _ (Nat.lt_succ_self _)

/-- A whitespace/comment-only input is empty or starts with a space or a
slash. -/
theorem trivia_head {ac : Bool} {s : Str} (h : Trivia ac s) :
    s = [] ∨ ∃ c r, s = c :: r ∧ (isSpaceCh c = true ∨ c = '/') := by
  cases h with
  | nil => exact Or.inl rfl
  | ws ac c s hsp _ => exact Or.inr ⟨c, s, rfl, Or.inl hsp⟩
  | line bo t _ _ _ => exact Or.inr ⟨'/', _, rfl, Or.inr rfl⟩
  | blk bo t _ _ => exact Or.inr ⟨'/', _, rfl, Or.inr rfl⟩

/-- Without a leading byte-order mark, `lexInit` just positions the lexer
at the head of the input. -/
theorem lexInit_noBom (s : Str) (h : s.head? ≠ some (Char.ofNat 0xFEFF)) :
    lexInit s = ⟨s, (stepPos 1 0 s.head?).1, (stepPos 1 0 s.head?).2⟩ := by
  rw [lexInit]
  simp only [LexSt.cur]
  rw [if_neg h]


/-! ## Claims -/

/-- C6: any input with a zero byte in its first 4096 bytes is rejected as
binary with the distinguished error before tokenization, for any options;
an input with no zero byte there is never classified as binary. -/
theorem C6_binary_rejection (input : Str) (opt : Option ParseOptions) :
    ((input.take 4096).any (fun c => c = Char.ofNat 0) = true →
      Decode opt input = .error .binary) ∧
    ((input.take 4096).any (fun c => c = Char.ofNat 0) = false →
      isBinaryRVMAT input = false) := by
  constructor
  · intro h
    simp only [Decode, isBinaryRVMAT]
    rw [if_pos h]
  · intro h
    simpa [isBinaryRVMAT] using h

theorem C6_binary_rejection_witness :
    Decode none (('a' :: [Char.ofNat 0]) ++ (("text" : String)).data) = .error .binary ∧
    isBinaryRVMAT (("ambient" : String)).data = false :=
  ⟨(C6_binary_rejection _ none).1 (by decide),
   (C6_binary_rejection _ none).2 (by decide)⟩

/-- C8: the example procedural color string parses to a Procedural
reference with ParsedOK, header fields argb/8/8/3, function "color" and a
typed Color payload {0.5,0.5,0.5,1.0,"co"}; in general, a procedural
texture whose (case-folded) function is "color" gets a Color payload
exactly when it has 4 or 5 arguments whose first four parse as floats, and
is left undecorated (not failed) otherwise. -/
theorem C8_procedural_color :
    (ParseTextureRef (("#(argb,8,8,3)color(0.5,0.5,0.5,1.0,co)" : String)).data =
      ⟨some ⟨some ⟨(("co" : String)).data, qmk 1 2, qmk 1 2, qmk 1 2, qmk 1 1⟩, none, none,
        (("argb" : String)).data, (("color" : String)).data,
        [(("0.5" : String)).data, (("0.5" : String)).data, (("0.5" : String)).data,
         (("1.0" : String)).data, (("co" : String)).data], 8, 8, 3⟩,
       (("#(argb,8,8,3)color(0.5,0.5,0.5,1.0,co)" : String)).data, .procedural, true⟩) ∧
    (∀ (pt : ProceduralTexture) (a1 a2 a3 a4 : Str) (r g b a : ℚ),
      toLowerStr pt.func = (("color" : String)).data →
      pt.args = [a1, a2, a3, a4] →
      parseFloatArg a1 = some r → parseFloatArg a2 = some g →
      parseFloatArg a3 = some b → parseFloatArg a4 = some a →
      parseProceduralArgs pt =
        ⟨some ⟨[], r, g, b, a⟩, pt.fresnel, pt.irradiance, pt.format, pt.func,
          pt.args, pt.width, pt.height, pt.mip⟩) ∧
    (∀ (pt : ProceduralTexture) (a1 a2 a3 a4 tg : Str) (r g b a : ℚ),
      toLowerStr pt.func = (("color" : String)).data →
      pt.args = [a1, a2, a3, a4, tg] →
      parseFloatArg a1 = some r → parseFloatArg a2 = some g →
      parseFloatArg a3 = some b → parseFloatArg a4 = some a →
      parseProceduralArgs pt =
        ⟨some ⟨tg, r, g, b, a⟩, pt.fresnel, pt.irradiance, pt.format, pt.func,
          pt.args, pt.width, pt.height, pt.mip⟩) ∧
    (∀ pt : ProceduralTexture,
      toLowerStr pt.func = (("color" : String)).data →
      pt.args.length ≠ 4 → pt.args.length ≠ 5 →
      parseProceduralArgs pt = pt) ∧
    (∀ (pt : ProceduralTexture) (a1 a2 a3 a4 : Str) (rest : List Str),
      toLowerStr pt.func = (("color" : String)).data →
      pt.args = a1 :: a2 :: a3 :: a4 :: rest → rest.length ≤ 1 →
      ¬((parseFloatArg a1).isSome ∧ (parseFloatArg a2).isSome ∧
        (parseFloatArg a3).isSome ∧ (parseFloatArg a4).isSome) →
      parseProceduralArgs pt = pt) := by
  refine ⟨by decide, ?_, ?_, ?_, ?_⟩
  · intro pt a1 a2 a3 a4 r g b a hf hargs h1 h2 h3 h4
    simp only [parseProceduralArgs, hf, if_pos, parseProceduralColor, hargs,
      h1, h2, h3, h4]
  · intro pt a1 a2 a3 a4 tg r g b a hf hargs h1 h2 h3 h4
    simp only [parseProceduralArgs, hf, if_pos, parseProceduralColor, hargs,
      h1, h2, h3, h4]
  · intro pt hf h4 h5
    simp only [parseProceduralArgs, hf, if_pos, parseProceduralColor]
    match hargs : pt.args with
    | [] => rfl
    | [_] => rfl
    | [_, _] => rfl
    | [_, _, _] => rfl
    | [_, _, _, _] => rw [hargs] at h4; simp at h4
    | [_, _, _, _, _] => rw [hargs] at h5; simp at h5
    | _ :: _ :: _ :: _ :: _ :: _ :: _ => rfl
  · intro pt a1 a2 a3 a4 rest hf hargs hlen hbad
    simp only [parseProceduralArgs, hf, if_pos, parseProceduralColor, hargs]
    match rest with
    | [] =>
      simp only []
      cases h1 : parseFloatArg a1 with
      | none => rfl
      | some r =>
        cases h2 : parseFloatArg a2 with
        | none => rfl
        | some g =>
          cases h3 : parseFloatArg a3 with
          | none => rfl
          | some b =>
            cases h4 : parseFloatArg a4 with
            | none => rfl
            | some a => exact absurd ⟨by simp [h1], by simp [h2], by simp [h3], by simp [h4]⟩ hbad
    | [tg] =>
      simp only []
      cases h1 : parseFloatArg a1 with
      | none => rfl
      | some r =>
        cases h2 : parseFloatArg a2 with
        | none => rfl
        | some g =>
          cases h3 : parseFloatArg a3 with
          | none => rfl
          | some b =>
            cases h4 : parseFloatArg a4 with
            | none => rfl
            | some a => exact absurd ⟨by simp [h1], by simp [h2], by simp [h3], by simp [h4]⟩ hbad
    | _ :: _ :: _ => simp at hlen

theorem C8_procedural_color_witness :
    parseProceduralArgs
      ⟨none, none, none, (("argb" : String)).data, (("Color" : String)).data,
        [(("1" : String)).data, (("0" : String)).data, (("0" : String)).data,
         (("1" : String)).data], 8, 8, 3⟩ =
      ⟨some ⟨[], 1, 0, 0, 1⟩, none, none, (("argb" : String)).data,
        (("Color" : String)).data,
        [(("1" : String)).data, (("0" : String)).data, (("0" : String)).data,
         (("1" : String)).data], 8, 8, 3⟩ :=
  C8_procedural_color.2.1 _ _ _ _ _ 1 0 0 1 (by decide) rfl
    (by decide) (by decide) (by decide) (by decide)

/-- C9: in strict (relaxed-disabled) mode a quoted-string or identifier
element of a numeric array is accepted exactly when its text, trimmed and
with trailing dots stripped, parses as a float, contributing that value;
in particular strict parsing of a material whose diffuse array is
`{"2.5."}` yields diffuse = [2.5]. -/
theorem C9_strict_number_token :
    (∀ tok : Tok, tok.t = .str ∨ tok.t = .ident →
      parseNumberToken tok =
        (match parseFloatQ (dropTrailingDots (trimSpace tok.lit)) with
         | some f => (f, true)
         | none => (0, false))) ∧
    Decode (some ⟨false, false, true⟩)
        (("diffuse[] = \x7b\"2.5.\"\x7d;" : String)).data =
      .ok (Material.mk [] [qmk 5 2] [] [] [] none [] [] [] [] []) := by
  constructor
  · intro tok ht
    have key : ∀ s : Str,
        (if s = [] then ((0 : ℚ), false)
         else match parseFloatQ s with
           | some f => (f, true)
           | none => (0, false)) =
        (match parseFloatQ s with
         | some f => (f, true)
         | none => ((0 : ℚ), false)) := by
      intro s
      by_cases hs : s = []
      · subst hs
        rfl
      · rw [if_neg hs]
    rcases ht with h | h
    · rcases tok with ⟨t, lit, l, c⟩
      cases t <;> simp at h
      simpa only [parseNumberToken] using key _
    · rcases tok with ⟨t, lit, l, c⟩
      cases t <;> simp at h
      simpa only [parseNumberToken] using key _
  · decide

theorem C9_strict_number_token_witness :
    parseNumberToken ⟨.str, (("2.5." : String)).data, 1, 1⟩ = (qmk 5 2, true) := by
  have h := C9_strict_number_token.1 ⟨.str, (("2.5." : String)).data, 1, 1⟩ (Or.inl rfl)
  rw [h]
  decide

/-- C7: parsing `diffuse[] = {0.75, 1.5, "1.25.1", 0.0};` with relaxed
numbers (the default) succeeds with diffuse exactly [0.75, 1.5, 0, 0];
with relaxed numbers disabled the same input fails with a parse error at
the bad token's position (line 1, column 25); and in general, at any
element position of a numeric array whose token fails numeric conversion,
strict mode errors there with "expected number" while relaxed mode never
raises that error, substituting 0 for the failed element. -/
theorem C7_relaxed_numbers :
    (Decode none (("diffuse[] = \x7b0.75, 1.5, \"1.25.1\", 0.0\x7d;" : String)).data =
      .ok (Material.mk [] [qmk 3 4, qmk 3 2, 0, 0] [] [] [] none [] [] [] [] [])) ∧
    (Decode (some ⟨false, false, true⟩)
        (("diffuse[] = \x7b0.75, 1.5, \"1.25.1\", 0.0\x7d;" : String)).data =
      .error (.parse 1 25 (("expected number" : String)).data)) ∧
    (∀ (fuel : ℕ) (ts : List Tok), (peekT ts).t ≠ .rbrace →
      (parseNumberToken (nextT ts).1).2 = false →
      parseNumASeqF false (fuel + 1) ts =
        .error (perr (nextT ts).1 (("expected number" : String)).data)) ∧
    (∀ (fuel : ℕ) (ts : List Tok) (l c : ℕ),
      parseNumASeqF true fuel ts ≠ .error (.parse l c (("expected number" : String)).data)) ∧
    (∀ tok : Tok, (parseNumberToken tok).2 = false → (parseNumberToken tok).1 = 0) := by
  refine ⟨by decide, by decide, ?_, ?_, ?_⟩
  · intro fuel ts hpk hfail
    rw [parseNumASeqF]
    rw [if_neg hpk, if_pos (by simp [hfail])]
  · intro fuel
    induction fuel with
    | zero =>
      intro ts l c heq
      rw [parseNumASeqF] at heq
      simp only [perr, Except.error.injEq, RErr.parse.injEq] at heq
      have : (("out of fuel" : String)).data ≠ (("expected number" : String)).data := by decide
      exact this heq.2.2
    | succ n ih =>
      intro ts l c heq
      rw [parseNumASeqF] at heq
      by_cases hpk : (peekT ts).t = .rbrace
      · rw [if_pos hpk] at heq
        simp at heq
      · rw [if_neg hpk] at heq
        rw [if_neg (by simp)] at heq
        by_cases hcm : (peekT (nextT ts).2).t = .comma
        · rw [if_pos hcm] at heq
          cases hr : parseNumASeqF true n (nextT (nextT ts).2).2 with
          | ok q => rw [hr] at heq; simp at heq
          | error e =>
            rw [hr] at heq
            simp only [Except.error.injEq] at heq
            exact ih _ l c (by rw [hr, heq])
        · rw [if_neg hcm] at heq
          by_cases hrb : (peekT (nextT ts).2).t = .rbrace
          · rw [if_pos hrb] at heq
            simp at heq
          · rw [if_neg hrb] at heq
            simp only [perr, Except.error.injEq, RErr.parse.injEq] at heq
            have : (("expected ',' or '\x7d' in array" : String)).data ≠
                (("expected number" : String)).data := by decide
            exact this heq.2.2
  · intro tok h
    rcases tok with ⟨t, lit, l, c⟩
    cases t <;> simp only [parseNumberToken] at h ⊢ <;> try rfl
    · by_cases hs : dropTrailingDots (trimSpace lit) = []
      · rw [if_pos hs]
      · rw [if_neg hs] at h ⊢
        cases hp : parseFloatQ (dropTrailingDots (trimSpace lit)) with
        | none => rfl
        | some f => rw [hp] at h; simp at h
    · cases hp : parseFloatQ lit with
      | none => rfl
      | some f => rw [hp] at h; simp at h
    · by_cases hs : dropTrailingDots (trimSpace lit) = []
      · rw [if_pos hs]
      · rw [if_neg hs] at h ⊢
        cases hp : parseFloatQ (dropTrailingDots (trimSpace lit)) with
        | none => rfl
        | some f => rw [hp] at h; simp at h

theorem C7_relaxed_numbers_witness :
    parseNumASeqF false 1
        [⟨.str, (("x" : String)).data, 2, 7⟩, ⟨.rbrace, [Char.ofNat 125], 2, 8⟩] =
      .error (.parse 2 7 (("expected number" : String)).data) := by
  have h := C7_relaxed_numbers.2.2.1 0
    [⟨.str, (("x" : String)).data, 2, 7⟩, ⟨.rbrace, [Char.ofNat 125], 2, 8⟩]
    (by decide) (by decide)
  rw [h]
  decide

/-- C10 (amended): the empty input, and more generally any input that
consists only of whitespace and (when comments are enabled) comments and
contains no zero byte in its first 4096 bytes, decodes successfully to
the empty Material (no colors, no specular power, empty shader ids, no
stages, no texGens, no extras).  The zero-byte proviso is necessary: a
comment containing a zero byte is classified as binary first (see the
counterexample). -/
theorem C10_trivia_empty (opt : Option ParseOptions) (s : Str)
    (htr : Trivia (!(ParseOptions.normalize opt).disableComments) s)
    (hbin : isBinaryRVMAT s = false) :
    Decode opt s = .ok Material.empty := by
  have hnb : s.head? ≠ some (Char.ofNat 0xFEFF) := by
    rcases trivia_head htr with rfl | ⟨c, r, rfl, hc⟩
    · simp
    · simp only [List.head?, ne_eq, Option.some.injEq]
      intro hEq
      subst hEq
      rcases hc with hsp | hsl
      · exact absurd hsp (by decide)
      · exact absurd hsl (by decide)
  have hskip := trivia_skipWhitespace htr
    (stepPos 1 0 s.head?).1 (stepPos 1 0 s.head?).2
  rcases hres : skipWhitespace (!(ParseOptions.normalize opt).disableComments)
      ⟨s, (stepPos 1 0 s.head?).1, (stepPos 1 0 s.head?).2⟩ with ⟨inp2, L, C⟩
  rw [hres] at hskip
  dsimp only at hskip
  subst hskip
  have hnx : lexNext (ParseOptions.normalize opt)
      ⟨s, (stepPos 1 0 s.head?).1, (stepPos 1 0 s.head?).2⟩ =
      .ok (⟨.eof, [], L, C⟩, ⟨[], L, C⟩) := by
    rw [lexNext, hres]
    rfl
  have htok : tokenize (ParseOptions.normalize opt) s =
      .ok [⟨.eof, [], L, C⟩] := by
    rw [tokenize, lexInit_noBom s hnb]
    exact lexList_eof _ _ _ _ hnx rfl
  simp only [Decode]
  rw [if_neg (by simp [hbin]), htok]
  rfl

/-- C10 counterexample: `// ` followed by a zero byte is an input that
consists only of a line comment, yet Decode rejects it as binary instead
of returning the empty material. -/
theorem C10_trivia_empty_cex :
    Trivia true ['/', '/', ' ', Char.ofNat 0] ∧
    Decode none ['/', '/', ' ', Char.ofNat 0] = .error .binary := by
  constructor
  · have h := Trivia.line [' ', Char.ofNat 0] [] (by decide) (Or.inl rfl)
      (Trivia.nil true)
    simpa using h
  · decide

theorem C10_trivia_empty_witness :
    Decode none ((" /*x*/ //t" : String)).data = .ok Material.empty :=
  C10_trivia_empty none ((" /*x*/ //t" : String)).data
    (Trivia.ws _ ' ' _ (by decide)
      (Trivia.blk ['x'] (' ' :: '/' :: '/' :: ['t']) (by decide)
        (Trivia.ws _ ' ' _ (by decide)
          (Trivia.line ['t'] [] (by decide) (Or.inl rfl) (Trivia.nil true)))))
    (by decide)

/-- C3 counterexample: a stage named `Stage1` (known), with empty uvSource,
empty texGen and a present uvTransform — the claim requires a separate
"missing uvSource" warning, but Validate returns no issues at all. -/
theorem C3_uv_warnings_cex :
    Validate [(("P" : String)).data] [(("V" : String)).data]
      [(("Stage1" : String)).data] (fun _ _ => []) (fun _ => false)
      (Material.mk [] [] [] [] [] none (("P" : String)).data (("V" : String)).data
        [⟨(("Stage1" : String)).data, TextureRef.zero, [], [],
          some ⟨[], [], [], []⟩, []⟩] [] [])
      none = [] := by decide

/-- C3 (amended): for a stage not named StageTI/Stage0, with uvSource not
"none"/"WorldPos" and empty texGen: when both uvSource and uvTransform are
absent both warnings fire; when uvTransform alone is absent its warning
fires; but when uvTransform is present no UV-wiring warning fires at all —
in particular a missing uvSource produces no warning when uvTransform is
present (the missing-uvSource warning only ever fires together with the
missing-uvTransform one); and every stage's UV-wiring issues are part of
Validate's output. -/
theorem C3_uv_warnings (vopt : ValidateOptions) (ks : List Str) (st : Stage)
    (hn1 : st.name ≠ (("StageTI" : String)).data)
    (hn2 : st.name ≠ (("Stage0" : String)).data)
    (hu1 : st.uvSource ≠ (("none" : String)).data)
    (hu2 : st.uvSource ≠ (("WorldPos" : String)).data)
    (htg : st.texGen = []) :
    (st.uvSource = [] ∧ st.uvTransform = none →
      (⟨.warning, [], (("stage without texGen missing uvSource" : String)).data,
          st.name⟩ : Issue) ∈ stageUVIssues vopt ks st ∧
      (⟨.warning, [], (("stage without texGen missing uvTransform" : String)).data,
          st.name⟩ : Issue) ∈ stageUVIssues vopt ks st) ∧
    (st.uvTransform = none →
      (⟨.warning, [], (("stage without texGen missing uvTransform" : String)).data,
          st.name⟩ : Issue) ∈ stageUVIssues vopt ks st) ∧
    (st.uvTransform ≠ none →
      (⟨.warning, [], (("stage without texGen missing uvSource" : String)).data,
          st.name⟩ : Issue) ∉ stageUVIssues vopt ks st ∧
      (⟨.warning, [], (("stage without texGen missing uvTransform" : String)).data,
          st.name⟩ : Issue) ∉ stageUVIssues vopt ks st) ∧
    (∀ (kp kv : List Str) (rp : Str → Str → Str) (fe : Str → Bool)
      (m : Material) (opt : Option ValidateOptions) (x : Issue),
      st ∈ m.stages → x ∈ stageUVIssues (ValidateOptions.normalize opt) ks st →
      x ∈ Validate kp kv ks rp fe m opt) := by
  have hrw : stageUVIssues vopt ks st =
      (if !vopt.disableShaderNameCheck ∧ st.name ∉ ks then
        [⟨.warning, [], (("unknown Stage name" : String)).data, st.name⟩]
      else [])
      ++ (if st.uvSource = [] ∧ st.uvTransform = none then
            [⟨.warning, [], (("stage without texGen missing uvSource" : String)).data, st.name⟩,
             ⟨.warning, [], (("stage without texGen missing uvTransform" : String)).data, st.name⟩]
          else if st.uvTransform = none then
            [⟨.warning, [], (("stage without texGen missing uvTransform" : String)).data, st.name⟩]
          else []) := by
    rw [stageUVIssues]
    rw [if_neg (show ¬(st.name = (("StageTI" : String)).data ∨
      st.name = (("Stage0" : String)).data) from fun h => h.elim hn1 hn2)]
    rw [if_neg (show ¬(st.uvSource = (("none" : String)).data ∨
      st.uvSource = (("WorldPos" : String)).data) from fun h => h.elim hu1 hu2)]
    rw [if_neg (show ¬st.texGen ≠ [] from fun h => h htg)]
  refine ⟨?_, ?_, ?_, ?_⟩
  · intro hboth
    rw [hrw, if_pos hboth]
    constructor
    · exact List.mem_append.mpr (Or.inr (by simp))
    · exact List.mem_append.mpr (Or.inr (by simp))
  · intro htr
    rw [hrw]
    by_cases hus : st.uvSource = []
    · rw [if_pos (show st.uvSource = [] ∧ st.uvTransform = none from ⟨hus, htr⟩)]
      exact List.mem_append.mpr (Or.inr (by simp))
    · rw [if_neg (show ¬(st.uvSource = [] ∧ st.uvTransform = none) from
        fun h => hus h.1), if_pos htr]
      exact List.mem_append.mpr (Or.inr (by simp))
  · intro htr
    constructor
    · intro hmem
      rw [hrw, if_neg (show ¬(st.uvSource = [] ∧ st.uvTransform = none) from
        fun h => htr h.2), if_neg htr, List.append_nil] at hmem
      by_cases hc : !vopt.disableShaderNameCheck ∧ st.name ∉ ks
      · rw [if_pos hc] at hmem
        simp only [List.mem_singleton, Issue.mk.injEq] at hmem
        have : (("stage without texGen missing uvSource" : String)).data ≠
            (("unknown Stage name" : String)).data := by decide
        exact this hmem.2.2.1
      · rw [if_neg hc] at hmem
        simp at hmem
    · intro hmem
      rw [hrw, if_neg (show ¬(st.uvSource = [] ∧ st.uvTransform = none) from
        fun h => htr h.2), if_neg htr, List.append_nil] at hmem
      by_cases hc : !vopt.disableShaderNameCheck ∧ st.name ∉ ks
      · rw [if_pos hc] at hmem
        simp only [List.mem_singleton, Issue.mk.injEq] at hmem
        have : (("stage without texGen missing uvTransform" : String)).data ≠
            (("unknown Stage name" : String)).data := by decide
        exact this hmem.2.2.1
      · rw [if_neg hc] at hmem
        simp at hmem
  · intro kp kv rp fe m opt x hst hx
    rw [Validate]
    refine List.mem_append.mpr (Or.inl ?_)
    refine List.mem_append.mpr (Or.inr ?_)
    exact List.mem_flatten.mpr ⟨_, List.mem_map.mpr ⟨st, hst, rfl⟩, hx⟩

theorem C3_uv_warnings_witness :
    (⟨.warning, [], (("stage without texGen missing uvSource" : String)).data,
        (("Stage7" : String)).data⟩ : Issue) ∈
      stageUVIssues ⟨[], [], true, false, false⟩ []
        ⟨(("Stage7" : String)).data, TextureRef.zero, [], [], none, []⟩ :=
  ((C3_uv_warnings ⟨[], [], true, false, false⟩ []
    ⟨(("Stage7" : String)).data, TextureRef.zero, [], [], none, []⟩
    (by decide) (by decide) (by decide) (by decide) rfl).1 ⟨rfl, rfl⟩).1

/-- A material exercising both the shader-name check and the stage-name
check: an unknown pixel shader id and an unknown stage name (with
uvSource "none" so no UV-wiring warnings apply). -/
def mShaderStage : Material :=
  Material.mk [] [] [] [] [] none (("PX" : String)).data []
    [⟨(("StageQ" : String)).data, TextureRef.zero, (("none" : String)).data, [],
      none, []⟩] [] []

/-- Both the unknown-stage-name warning and the unknown-shader-id warning
appear in Validate's output exactly when DisableShaderNameCheck is unset:
the two checks are governed by the same flag. -/
theorem validateShaderStageMem (opt : Option ValidateOptions) :
    ((⟨.warning, [], (("unknown Stage name" : String)).data,
        (("StageQ" : String)).data⟩ : Issue) ∈
      Validate [] [] [] (fun _ _ => []) (fun _ => false) mShaderStage opt ↔
      (ValidateOptions.normalize opt).disableShaderNameCheck = false) ∧
    ((⟨.warning, [], (("unknown PixelShaderID" : String)).data,
        (("PX" : String)).data⟩ : Issue) ∈
      Validate [] [] [] (fun _ _ => []) (fun _ => false) mShaderStage opt ↔
      (ValidateOptions.normalize opt).disableShaderNameCheck = false) := by
  cases hv : (ValidateOptions.normalize opt).disableShaderNameCheck with
  | false =>
    constructor <;> (rw [iff_true_intro rfl, iff_true]) <;>
      simp [Validate, hv, validateColor, stageTextureIssues, stageUVIssues,
        dupStageIssues, mShaderStage, TextureRef.zero, TextureRef.IsProcedural]
  | true =>
    constructor <;>
      (rw [iff_false_intro (by simp : ¬(true = false))]) <;>
      simp [Validate, hv, validateColor, stageTextureIssues, stageUVIssues,
        dupStageIssues, mShaderStage, TextureRef.zero, TextureRef.IsProcedural]

/-- C5 counterexample: for a concrete material with an unknown pixel
shader id ("PX") and an unknown stage name ("StageQ"), the only flag that
affects either check is DisableShaderNameCheck, and it governs both:
with it unset (and everything else disabled) both warnings appear, with
it set both disappear — the claimed configuration running one check
without the other does not exist (see the accompanying theorem for the
proof over all configurations). -/
theorem C5_toggle_cex :
    (((⟨.warning, [], (("unknown Stage name" : String)).data,
          (("StageQ" : String)).data⟩ : Issue) ∈
        Validate [] [] [] (fun _ _ => []) (fun _ => false) mShaderStage
          (some ⟨[], [], true, true, false⟩)) ∧
      ((⟨.warning, [], (("unknown PixelShaderID" : String)).data,
          (("PX" : String)).data⟩ : Issue) ∈
        Validate [] [] [] (fun _ _ => []) (fun _ => false) mShaderStage
          (some ⟨[], [], true, true, false⟩))) ∧
    (((⟨.warning, [], (("unknown Stage name" : String)).data,
          (("StageQ" : String)).data⟩ : Issue) ∉
        Validate [] [] [] (fun _ _ => []) (fun _ => false) mShaderStage
          (some ⟨[], [], true, true, true⟩)) ∧
      ((⟨.warning, [], (("unknown PixelShaderID" : String)).data,
          (("PX" : String)).data⟩ : Issue) ∉
        Validate [] [] [] (fun _ _ => []) (fun _ => false) mShaderStage
          (some ⟨[], [], true, true, true⟩))) := by
  exact ⟨⟨by decide, by decide⟩, ⟨by decide, by decide⟩⟩

/-- C5 (amended): the stage-name check (check 5) and the shader-name check
(check 2) are governed by the same DisableShaderNameCheck flag: each fires
exactly when that flag is unset, so they cannot be toggled independently
(only the extension and file checks have flags of their own). -/
theorem C5_toggle (vopt : Option ValidateOptions) :
    ((⟨.warning, [], (("unknown Stage name" : String)).data,
        (("StageQ" : String)).data⟩ : Issue) ∈
      Validate [] [] [] (fun _ _ => []) (fun _ => false) mShaderStage vopt ↔
      (ValidateOptions.normalize vopt).disableShaderNameCheck = false) ∧
    ((⟨.warning, [], (("unknown PixelShaderID" : String)).data,
        (("PX" : String)).data⟩ : Issue) ∈
      Validate [] [] [] (fun _ _ => []) (fun _ => false) mShaderStage vopt ↔
      (ValidateOptions.normalize vopt).disableShaderNameCheck = false) :=
  validateShaderStageMem vopt

theorem C5_toggle_witness :
    (⟨.warning, [], (("unknown Stage name" : String)).data,
        (("StageQ" : String)).data⟩ : Issue) ∈
      Validate [] [] [] (fun _ _ => []) (fun _ => false) mShaderStage none :=
  (C5_toggle none).1.mpr rfl


/-- Boolean string-prefix test (structural, for efficient evaluation). -/
def isPrefixB : Str → Str → Bool
  | [], _ => true
  | _ :: _, [] => false
  | a :: as, b :: bs => a = b && isPrefixB as bs

/-- Boolean substring test: `pat` occurs contiguously in `s`. -/
def containsStr (pat : Str) : Str → Bool
  | [] => pat.isEmpty
  | c :: r => isPrefixB pat (c :: r) || containsStr pat r

theorem isPrefixB_iff (pat : Str) : ∀ s : Str,
    isPrefixB pat s = true ↔ pat <+: s := by
  induction pat with
  | nil => intro s; simp [isPrefixB]
  | cons a as ih =>
    intro s
    cases s with
    | nil => simp [isPrefixB]
    | cons b bs =>
      rw [isPrefixB]
      simp only [Bool.and_eq_true, decide_eq_true_eq, List.cons_prefix_cons]
      exact and_congr Iff.rfl (ih bs)

theorem containsStr_iff (pat : Str) : ∀ s : Str,
    containsStr pat s = true ↔ pat <:+: s := by
  intro s
  induction s with
  | nil =>
    rw [containsStr]
    simp [List.isEmpty_iff, List.infix_nil]
  | cons c r ih =>
    rw [containsStr]
    simp only [Bool.or_eq_true, isPrefixB_iff, ih]
    constructor
    · intro h
      rcases h with h | h
      · exact h.isInfix
      · exact h.trans (List.suffix_cons c r).isInfix
    · intro h
      rcases h with ⟨s1, s2, he⟩
      cases s1 with
      | nil => exact Or.inl ⟨s2, by simpa using he⟩
      | cons x xs =>
        refine Or.inr ⟨xs, s2, ?_⟩
        have : x = c ∧ xs ++ (pat ++ s2) = r := by
          simpa using he
        simpa using this.2

/-! ## Unknown-field capture and re-emission

The dispatch functions of each scope (top level, stage body, texGen body)
fall through to the generic assignment/class parser whenever the name is
none of the scope's captured keys, appending the parsed node to the
`extras` accumulator; and the writer re-emits every extra node, its
rendering appearing contiguously in the output. -/

/-- expect on a token of the expected type succeeds with that token. -/
theorem expectT_cons_eq {tt : TokType} {tok : Tok} (r : List Tok) (h : tok.t = tt) :
    expectT tt (tok :: r) = .ok (tok, r) := by
  simp [expectT, nextT, h]

/-- A top-level assignment whose name is not a color array, specularPower
or a shader ID parses generically and lands in the material extras. -/
theorem parseTopAssign_capture (opt : ParseOptions) (m : Material) (tn : Tok)
    (ts1 : List Tok) (hid : tn.t = .ident)
    (h1 : isColorKey tn.lit (!opt.disableCaseInsensitive) = false)
    (h2 : matchKey tn.lit (("specularpower" : String)).data (!opt.disableCaseInsensitive) = false)
    (h3 : matchKey tn.lit (("pixelshaderid" : String)).data (!opt.disableCaseInsensitive) = false)
    (h4 : matchKey tn.lit (("vertexshaderid" : String)).data (!opt.disableCaseInsensitive) = false) :
    parseTopAssign opt m (tn :: ts1) =
      (parseAssign (tn :: ts1)).map fun p =>
        (Material.mk m.ambient m.diffuse m.forcedDiffuse m.emmisive m.specular
          m.specularPower m.pixelShaderID m.vertexShaderID m.stages m.texGens
          (m.extras ++ [p.1]), p.2) := by
  simp only [parseTopAssign, parseAssign, expectT_cons_eq ts1 hid]
  cases hbr : (if (peekT ts1).t = TokType.lbracket then
      Except.map (fun p => (true, p.2)) (expectT TokType.rbracket (nextT ts1).2)
    else Except.ok (false, ts1)) with
  | error e => rfl
  | ok pb =>
    dsimp only
    cases hpe : expectT TokType.equal pb.2 with
    | error e => rfl
    | ok pe =>
      dsimp only
      simp only [h1, h2, h3, h4, Bool.false_eq_true, and_false, if_false]
      cases hv : parseValue pe.2 with
      | error e => rfl
      | ok pv =>
        dsimp only
        cases hs : expectT TokType.semicolon pv.2 with
        | error e => simp [expectSemicolon, hs, Except.map]
        | ok ps => simp [expectSemicolon, hs, Except.map]

/-- A stage-body assignment whose name is not texture, uvsource or texgen
parses generically and lands in the stage extras. -/
theorem parseStageAssign_capture (opt : ParseOptions) (st : Stage) (tn : Tok)
    (ts1 : List Tok) (hid : tn.t = .ident)
    (h1 : matchKey tn.lit (("texture" : String)).data (!opt.disableCaseInsensitive) = false)
    (h2 : matchKey tn.lit (("uvsource" : String)).data (!opt.disableCaseInsensitive) = false)
    (h3 : matchKey tn.lit (("texgen" : String)).data (!opt.disableCaseInsensitive) = false) :
    parseStageAssign opt st (tn :: ts1) =
      (parseAssign (tn :: ts1)).map fun p =>
        (Stage.mk st.name st.texture st.uvSource st.texGen st.uvTransform
          (st.extras ++ [p.1]), p.2) := by
  simp only [parseStageAssign, parseAssign, expectT_cons_eq ts1 hid]
  cases hbr : (if (peekT ts1).t = TokType.lbracket then
      Except.map (fun p => (true, p.2)) (expectT TokType.rbracket (nextT ts1).2)
    else Except.ok (false, ts1)) with
  | error e => rfl
  | ok pb =>
    dsimp only
    cases hpe : expectT TokType.equal pb.2 with
    | error e => rfl
    | ok pe =>
      dsimp only
      simp only [h1, h2, h3, Bool.false_eq_true, and_false, if_false]
      cases hv : parseValue pe.2 with
      | error e => rfl
      | ok pv =>
        dsimp only
        cases hs : expectT TokType.semicolon pv.2 with
        | error e => simp [expectSemicolon, hs, Except.map]
        | ok ps => simp [expectSemicolon, hs, Except.map]

/-- A texGen-body assignment whose name is not uvsource parses generically
and lands in the texGen extras. -/
theorem parseTexGenAssign_capture (opt : ParseOptions) (tg : TexGen) (tn : Tok)
    (ts1 : List Tok) (hid : tn.t = .ident)
    (h1 : matchKey tn.lit (("uvsource" : String)).data (!opt.disableCaseInsensitive) = false) :
    parseTexGenAssign opt tg (tn :: ts1) =
      (parseAssign (tn :: ts1)).map fun p =>
        (TexGen.mk tg.name tg.base tg.uvSource tg.uvTransform
          (tg.extras ++ [p.1]), p.2) := by
  simp only [parseTexGenAssign, parseAssign, expectT_cons_eq ts1 hid]
  cases hbr : (if (peekT ts1).t = TokType.lbracket then
      Except.map (fun p => (true, p.2)) (expectT TokType.rbracket (nextT ts1).2)
    else Except.ok (false, ts1)) with
  | error e => rfl
  | ok pb =>
    dsimp only
    cases hpe : expectT TokType.equal pb.2 with
    | error e => rfl
    | ok pe =>
      dsimp only
      simp only [h1, Bool.false_eq_true, and_false, if_false]
      cases hv : parseValue pe.2 with
      | error e => rfl
      | ok pv =>
        dsimp only
        cases hs : expectT TokType.semicolon pv.2 with
        | error e => simp [expectSemicolon, hs, Except.map]
        | ok ps => simp [expectSemicolon, hs, Except.map]

/-- A baseless top-level class whose name is neither a stage name nor a
texGen name parses generically and lands in the material extras. -/
theorem parseTopClass_capture (opt : ParseOptions) (m : Material) (tc tn : Tok)
    (ts2 : List Tok) (hc : tc.t = .kclass) (hn : tn.t = .ident)
    (hcol : ¬(peekT ts2).t = TokType.colon)
    (h1 : isStageName tn.lit opt = false)
    (h2 : isTexGenName tn.lit opt = false) :
    parseTopClass opt m (tc :: tn :: ts2) =
      (parseClassBody tn.lit [] ts2).map fun p =>
        (Material.mk m.ambient m.diffuse m.forcedDiffuse m.emmisive m.specular
          m.specularPower m.pixelShaderID m.vertexShaderID m.stages m.texGens
          (m.extras ++ [p.1]), p.2) := by
  simp only [parseTopClass, expectT_cons_eq (tn :: ts2) hc, expectT_cons_eq ts2 hn,
    if_neg hcol, h1, h2, Bool.false_eq_true, false_and, if_false]
  cases hb : parseClassBody tn.lit [] ts2 with
  | error e => rfl
  | ok p => rfl

/-- A baseless stage-body class whose name is not uvTransform parses
generically and lands in the stage extras. -/
theorem parseStageClass_capture (opt : ParseOptions) (st : Stage) (tc tn : Tok)
    (ts2 : List Tok) (hc : tc.t = .kclass) (hn : tn.t = .ident)
    (hcol : ¬(peekT ts2).t = TokType.colon)
    (h1 : equalFoldOpt tn.lit (("uvTransform" : String)).data opt = false) :
    parseStageClass opt st (tc :: tn :: ts2) =
      (parseClassBody tn.lit [] ts2).map fun p =>
        (Stage.mk st.name st.texture st.uvSource st.texGen st.uvTransform
          (st.extras ++ [p.1]), p.2) := by
  simp only [parseStageClass, expectT_cons_eq (tn :: ts2) hc, expectT_cons_eq ts2 hn,
    if_neg hcol, h1, Bool.false_eq_true, false_and, if_false]
  cases hb : parseClassBody tn.lit [] ts2 with
  | error e => rfl
  | ok p => rfl

/-- A baseless texGen-body class whose name is not uvTransform parses
generically and lands in the texGen extras. -/
theorem parseTexGenClass_capture (opt : ParseOptions) (tg : TexGen) (tc tn : Tok)
    (ts2 : List Tok) (hc : tc.t = .kclass) (hn : tn.t = .ident)
    (hcol : ¬(peekT ts2).t = TokType.colon)
    (h1 : equalFoldOpt tn.lit (("uvTransform" : String)).data opt = false) :
    parseTexGenClass opt tg (tc :: tn :: ts2) =
      (parseClassBody tn.lit [] ts2).map fun p =>
        (TexGen.mk tg.name tg.base tg.uvSource tg.uvTransform
          (tg.extras ++ [p.1]), p.2) := by
  simp only [parseTexGenClass, expectT_cons_eq (tn :: ts2) hc, expectT_cons_eq ts2 hn,
    if_neg hcol, h1, Bool.false_eq_true, false_and, if_false]
  cases hb : parseClassBody tn.lit [] ts2 with
  | error e => rfl
  | ok p => rfl

/-- An infix of the right summand is an infix of an append. -/
theorem infix_append_right {l t : Str} (s : Str) (h : l <:+: t) : l <:+: s ++ t :=
  h.trans (List.suffix_append s t).isInfix

/-- An infix of the left summand is an infix of an append. -/
theorem infix_append_left {l s : Str} (t : Str) (h : l <:+: s) : l <:+: s ++ t :=
  h.trans (List.prefix_append s t).isInfix

/-- A member of a list of strings is an infix of their concatenation. -/
theorem mem_infix_flatten {l : Str} {L : List Str} (h : l ∈ L) : l <:+: L.flatten := by
  induction L with
  | nil => cases h
  | cons x xs ih =>
    rw [List.flatten_cons]
    rcases List.mem_cons.mp h with he | hm
    · exact he ▸ infix_append_left _ (List.infix_refl _)
    · exact infix_append_right _ (ih hm)

/-- The rendering of each node of a list appears contiguously in the
rendering of the list. -/
theorem writeNode_infix_writeNodes (ind : Str) (lvl : ℕ) (nd : Node)
    (nodes : List Node) (h : nd ∈ nodes) :
    writeNode ind lvl nd <:+: writeNodes ind lvl nodes := by
  induction nodes with
  | nil => cases h
  | cons n rest ih =>
    rw [writeNodes]
    rcases List.mem_cons.mp h with he | hm
    · exact he ▸ infix_append_left _ (List.infix_refl _)
    · exact infix_append_right _ (ih hm)

/-- The writer re-emits every top-level extra node: its rendering is an
infix of the material output. -/
theorem extra_infix_writeMaterial (ind : Str) (m : Material) (nd : Node)
    (h : nd ∈ m.extras) :
    writeNode ind 0 nd <:+: writeMaterialStr ind m := by
  simp only [writeMaterialStr]
  exact infix_append_right _ (writeNode_infix_writeNodes ind 0 nd m.extras h)

/-- The writer re-emits every stage extra node inside the stage block. -/
theorem extra_infix_writeStage (ind : Str) (s : Stage) (nd : Node)
    (h : nd ∈ s.extras) :
    writeNode ind 1 nd <:+: writeStageStr ind s := by
  simp only [writeStageStr]
  exact infix_append_left _
    (infix_append_right _ (writeNode_infix_writeNodes ind 1 nd s.extras h))

/-- The writer re-emits every texGen extra node inside the texGen block. -/
theorem extra_infix_writeTexGen (ind : Str) (t : TexGen) (nd : Node)
    (h : nd ∈ t.extras) :
    writeNode ind 1 nd <:+: writeTexGenStr ind t := by
  simp only [writeTexGenStr]
  exact infix_append_left _
    (infix_append_right _ (writeNode_infix_writeNodes ind 1 nd t.extras h))

/-- Each stage block appears contiguously in the material output. -/
theorem stage_infix_writeMaterial (ind : Str) (m : Material) (s : Stage)
    (hs : s ∈ m.stages) :
    writeStageStr ind s <:+: writeMaterialStr ind m := by
  simp only [writeMaterialStr]
  exact infix_append_left _ (infix_append_right _
    (mem_infix_flatten (List.mem_map_of_mem (writeStageStr ind) hs)))

/-- Each texGen block appears contiguously in the material output. -/
theorem texGen_infix_writeMaterial (ind : Str) (m : Material) (t : TexGen)
    (ht : t ∈ m.texGens) :
    writeTexGenStr ind t <:+: writeMaterialStr ind m := by
  simp only [writeMaterialStr]
  exact infix_append_left _ (infix_append_left _ (infix_append_right _
    (mem_infix_flatten (List.mem_map_of_mem (writeTexGenStr ind) ht))))

/-- The rendering of each node of a class body appears contiguously in the
rendering of the class node. -/
theorem body_infix_writeNode (ind : Str) (lvl : ℕ) (n b : Str) (body : List Node)
    (nd : Node) (h : nd ∈ body) :
    writeNode ind (lvl + 1) nd <:+: writeNode ind lvl (.cls n b body) := by
  rw [writeNode]
  exact infix_append_left _ (infix_append_left _ (infix_append_right _
    (writeNode_infix_writeNodes ind (lvl + 1) nd body h)))

/-! ## Concrete materials and inputs for the preservation and round-trip
claims -/

/-- An input whose uvTransform body contains an assignment with an
unrecognised name (`foo`). -/
def sUVUnknown : Str :=
  (("class Stage1 \x7b\nclass uvTransform \x7b\nfoo[] = \x7b5\x7d;\n\x7d;\n\x7d;\n" : String)).data

/-- What `sUVUnknown` parses to: the `foo` entry is gone. -/
def mUVUnknown : Material :=
  Material.mk [] [] [] [] [] none [] []
    [⟨(("Stage1" : String)).data, TextureRef.zero, [], [],
      some ⟨[], [], [], []⟩, []⟩] [] []

/-- A document with an unknown top-level assignment and an unrecognised
top-level class. -/
def sTopKept : Str :=
  (("mainLight = \"Sun\";\nclass Weird \x7b\nfoo = 1;\n\x7d;\n" : String)).data

/-- What `sTopKept` parses to: both nodes kept as top-level extras. -/
def mTopKept : Material :=
  Material.mk [] [] [] [] [] none [] [] [] []
    [Node.assign (("mainLight" : String)).data false (.str (("Sun" : String)).data),
     Node.cls (("Weird" : String)).data []
       [Node.assign (("foo" : String)).data false (.num (qmk 1 1))]]

/-- A document whose stage body has an unknown assignment and an
unrecognised class. -/
def sStageKept : Str :=
  (("class Stage1 \x7b\nbar = 2;\nclass Flt \x7b\nq = 7;\n\x7d;\n\x7d;\n" : String)).data

/-- What `sStageKept` parses to: the assignment and the class kept as stage
extras. -/
def mStageKept : Material :=
  Material.mk [] [] [] [] [] none [] []
    [⟨(("Stage1" : String)).data, TextureRef.zero, [], [], none,
      [Node.assign (("bar" : String)).data false (.num (qmk 2 1)),
       Node.cls (("Flt" : String)).data []
         [Node.assign (("q" : String)).data false (.num (qmk 7 1))]]⟩] [] []

/-- A document whose texGen body has an unknown assignment and an
unrecognised class. -/
def sTexGenKept : Str :=
  (("class TexGen0 \x7b\nbaz = 3;\nclass Glob \x7b\nw = 8;\n\x7d;\n\x7d;\n" : String)).data

/-- What `sTexGenKept` parses to: the assignment and the class kept as
texGen extras. -/
def mTexGenKept : Material :=
  Material.mk [] [] [] [] [] none [] [] []
    [⟨(("TexGen0" : String)).data, [], [], none,
      [Node.assign (("baz" : String)).data false (.num (qmk 3 1)),
       Node.cls (("Glob" : String)).data []
         [Node.assign (("w" : String)).data false (.num (qmk 8 1))]]⟩] []

/-- An input whose stage has both a non-empty texGen and a uvTransform. -/
def sTexGenUV : Str :=
  (("class Stage2 \x7b\ntexGen = \"1\";\nclass uvTransform \x7b\naside[] = \x7b1, 0, 0\x7d;\n\x7d;\n\x7d;\n" : String)).data

/-- What `sTexGenUV` parses to: texGen "1" and a uvTransform. -/
def mTexGenUV : Material :=
  Material.mk [] [] [] [] [] none [] []
    [⟨(("Stage2" : String)).data, TextureRef.zero, [], (("1" : String)).data,
      some ⟨[qmk 1 1, qmk 0 1, qmk 0 1], [], [], []⟩, []⟩] [] []

/-- What formatting and re-parsing `mTexGenUV` yields: the uvTransform is
lost (the writer suppresses it when texGen is set). -/
def mTexGenUVLost : Material :=
  Material.mk [] [] [] [] [] none [] []
    [⟨(("Stage2" : String)).data, TextureRef.zero, [], (("1" : String)).data,
      none, []⟩] [] []

/-- A material whose extras hold a `diffuse[]` assignment after another
extra: re-parsing captures it into the typed diffuse field, so a second
format pass moves it to the canonical position. -/
def mExtrasReorder : Material :=
  Material.mk [] [] [] [] [] none [] [] [] []
    [Node.assign (("zz" : String)).data false (.str (("q" : String)).data),
     Node.assign (("diffuse" : String)).data true (.arr [.num (qmk 1 1), .num (qmk 2 1), .num (qmk 3 1), .num (qmk 4 1)])]


/-- Decode factored through an explicit token list: non-binary input whose
tokenization and parse are known composes to the decoded material.  (Used
to keep concrete full-pipeline facts as two small kernel computations.) -/
theorem Decode_eq_ok (opt : Option ParseOptions) (input : Str) (ts : List Tok)
    (m : Material) (hb : isBinaryRVMAT input = false)
    (ht : tokenize (ParseOptions.normalize opt) input = .ok ts)
    (hp : parseMaterial (ParseOptions.normalize opt) ts = .ok m) :
    Decode opt input = .ok m := by
  simp only [Decode]
  rw [if_neg (by simp [hb]), ht]
  exact hp

/-- The token stream of `sTopKept`. -/
def toksTopKept : List Tok :=
  [⟨.ident, (("mainLight" : String)).data, 1, 1⟩,
   ⟨.equal, (("=" : String)).data, 1, 11⟩,
   ⟨.str, (("Sun" : String)).data, 1, 13⟩,
   ⟨.semicolon, ((";" : String)).data, 1, 18⟩,
   ⟨.kclass, (("class" : String)).data, 2, 1⟩,
   ⟨.ident, (("Weird" : String)).data, 2, 7⟩,
   ⟨.lbrace, [Char.ofNat 123], 2, 13⟩,
   ⟨.ident, (("foo" : String)).data, 3, 1⟩,
   ⟨.equal, (("=" : String)).data, 3, 5⟩,
   ⟨.number, (("1" : String)).data, 3, 7⟩,
   ⟨.semicolon, ((";" : String)).data, 3, 8⟩,
   ⟨.rbrace, [Char.ofNat 125], 4, 1⟩,
   ⟨.semicolon, ((";" : String)).data, 4, 2⟩,
   ⟨.eof, [], 5, 0⟩]

/-- The token stream of `sStageKept`. -/
def toksStageKept : List Tok :=
  [⟨.kclass, (("class" : String)).data, 1, 1⟩,
   ⟨.ident, (("Stage1" : String)).data, 1, 7⟩,
   ⟨.lbrace, [Char.ofNat 123], 1, 14⟩,
   ⟨.ident, (("bar" : String)).data, 2, 1⟩,
   ⟨.equal, (("=" : String)).data, 2, 5⟩,
   ⟨.number, (("2" : String)).data, 2, 7⟩,
   ⟨.semicolon, ((";" : String)).data, 2, 8⟩,
   ⟨.kclass, (("class" : String)).data, 3, 1⟩,
   ⟨.ident, (("Flt" : String)).data, 3, 7⟩,
   ⟨.lbrace, [Char.ofNat 123], 3, 11⟩,
   ⟨.ident, (("q" : String)).data, 4, 1⟩,
   ⟨.equal, (("=" : String)).data, 4, 3⟩,
   ⟨.number, (("7" : String)).data, 4, 5⟩,
   ⟨.semicolon, ((";" : String)).data, 4, 6⟩,
   ⟨.rbrace, [Char.ofNat 125], 5, 1⟩,
   ⟨.semicolon, ((";" : String)).data, 5, 2⟩,
   ⟨.rbrace, [Char.ofNat 125], 6, 1⟩,
   ⟨.semicolon, ((";" : String)).data, 6, 2⟩,
   ⟨.eof, [], 7, 0⟩]

/-- The token stream of `sTexGenKept`. -/
def toksTexGenKept : List Tok :=
  [⟨.kclass, (("class" : String)).data, 1, 1⟩,
   ⟨.ident, (("TexGen0" : String)).data, 1, 7⟩,
   ⟨.lbrace, [Char.ofNat 123], 1, 15⟩,
   ⟨.ident, (("baz" : String)).data, 2, 1⟩,
   ⟨.equal, (("=" : String)).data, 2, 5⟩,
   ⟨.number, (("3" : String)).data, 2, 7⟩,
   ⟨.semicolon, ((";" : String)).data, 2, 8⟩,
   ⟨.kclass, (("class" : String)).data, 3, 1⟩,
   ⟨.ident, (("Glob" : String)).data, 3, 7⟩,
   ⟨.lbrace, [Char.ofNat 123], 3, 12⟩,
   ⟨.ident, (("w" : String)).data, 4, 1⟩,
   ⟨.equal, (("=" : String)).data, 4, 3⟩,
   ⟨.number, (("8" : String)).data, 4, 5⟩,
   ⟨.semicolon, ((";" : String)).data, 4, 6⟩,
   ⟨.rbrace, [Char.ofNat 125], 5, 1⟩,
   ⟨.semicolon, ((";" : String)).data, 5, 2⟩,
   ⟨.rbrace, [Char.ofNat 125], 6, 1⟩,
   ⟨.semicolon, ((";" : String)).data, 6, 2⟩,
   ⟨.eof, [], 7, 0⟩]

/-- The token stream of `sUVUnknown`. -/
def toksUVUnknown : List Tok :=
  [⟨.kclass, (("class" : String)).data, 1, 1⟩,
   ⟨.ident, (("Stage1" : String)).data, 1, 7⟩,
   ⟨.lbrace, [Char.ofNat 123], 1, 14⟩,
   ⟨.kclass, (("class" : String)).data, 2, 1⟩,
   ⟨.ident, (("uvTransform" : String)).data, 2, 7⟩,
   ⟨.lbrace, [Char.ofNat 123], 2, 19⟩,
   ⟨.ident, (("foo" : String)).data, 3, 1⟩,
   ⟨.lbracket, (("[" : String)).data, 3, 4⟩,
   ⟨.rbracket, (("]" : String)).data, 3, 5⟩,
   ⟨.equal, (("=" : String)).data, 3, 7⟩,
   ⟨.lbrace, [Char.ofNat 123], 3, 9⟩,
   ⟨.number, (("5" : String)).data, 3, 10⟩,
   ⟨.rbrace, [Char.ofNat 125], 3, 11⟩,
   ⟨.semicolon, ((";" : String)).data, 3, 12⟩,
   ⟨.rbrace, [Char.ofNat 125], 4, 1⟩,
   ⟨.semicolon, ((";" : String)).data, 4, 2⟩,
   ⟨.rbrace, [Char.ofNat 125], 5, 1⟩,
   ⟨.semicolon, ((";" : String)).data, 5, 2⟩,
   ⟨.eof, [], 6, 0⟩]

/-- `sUVUnknown` lexes to `toksUVUnknown`. -/
theorem tok_sUVUnknown :
    tokenize (ParseOptions.normalize none) sUVUnknown = .ok toksUVUnknown := by decide

/-- `toksUVUnknown` parses to `mUVUnknown`: the `foo` entry is dropped. -/
theorem par_toksUVUnknown :
    parseMaterial (ParseOptions.normalize none) toksUVUnknown = .ok mUVUnknown := by decide

/-- `sUVUnknown` decodes to `mUVUnknown`. -/
theorem decode_sUVUnknown : Decode none sUVUnknown = .ok mUVUnknown :=
  Decode_eq_ok none _ _ _ (by decide) tok_sUVUnknown par_toksUVUnknown

/-- `sTopKept` lexes to `toksTopKept`. -/
theorem tok_sTopKept :
    tokenize (ParseOptions.normalize none) sTopKept = .ok toksTopKept := by decide

/-- `toksTopKept` parses with both unknown nodes kept as extras. -/
theorem par_toksTopKept :
    parseMaterial (ParseOptions.normalize none) toksTopKept = .ok mTopKept := by decide

/-- `sTopKept` decodes with its unknown nodes kept as extras. -/
theorem decode_sTopKept : Decode none sTopKept = .ok mTopKept :=
  Decode_eq_ok none _ _ _ (by decide) tok_sTopKept par_toksTopKept

/-- `sStageKept` lexes to `toksStageKept`. -/
theorem tok_sStageKept :
    tokenize (ParseOptions.normalize none) sStageKept = .ok toksStageKept := by decide

/-- `toksStageKept` parses with the stage's unknown assignment and class
kept. -/
theorem par_toksStageKept :
    parseMaterial (ParseOptions.normalize none) toksStageKept = .ok mStageKept := by decide

/-- `sStageKept` decodes with the stage's unknown assignment and class
kept. -/
theorem decode_sStageKept : Decode none sStageKept = .ok mStageKept :=
  Decode_eq_ok none _ _ _ (by decide) tok_sStageKept par_toksStageKept

/-- `sTexGenKept` lexes to `toksTexGenKept`. -/
theorem tok_sTexGenKept :
    tokenize (ParseOptions.normalize none) sTexGenKept = .ok toksTexGenKept := by decide

/-- `toksTexGenKept` parses with the texGen's unknown assignment and class
kept. -/
theorem par_toksTexGenKept :
    parseMaterial (ParseOptions.normalize none) toksTexGenKept = .ok mTexGenKept := by decide

/-- `sTexGenKept` decodes with the texGen's unknown assignment and class
kept. -/
theorem decode_sTexGenKept : Decode none sTexGenKept = .ok mTexGenKept :=
  Decode_eq_ok none _ _ _ (by decide) tok_sTexGenKept par_toksTexGenKept

/-- One unknown-name iteration of the uvTransform body loop reduces, by
computation, to the loop on the remaining tokens with the accumulator
updated by the name-selection ifs. -/
theorem uvDiscardStep (opt : ParseOptions) (fuel : ℕ) (uv : UVTransform) (name : Str)
    (l1 c1 l2 c2 l3 c3 l4 c4 l5 c5 l6 c6 l7 c7 l8 c8 : ℕ) (rest : List Tok) :
    parseUVSeqF opt (fuel + 1) uv
      (⟨.ident, name, l1, c1⟩ :: ⟨.lbracket, ['['], l2, c2⟩ ::
       ⟨.rbracket, [']'], l3, c3⟩ :: ⟨.equal, ['='], l4, c4⟩ ::
       ⟨.lbrace, [Char.ofNat 123], l5, c5⟩ :: ⟨.number, ['1'], l6, c6⟩ ::
       ⟨.rbrace, [Char.ofNat 125], l7, c7⟩ :: ⟨.semicolon, [';'], l8, c8⟩ :: rest)
    = parseUVSeqF opt fuel
        (if matchKey name (("aside" : String)).data (!opt.disableCaseInsensitive) then
          UVTransform.mk [qmk 1 1] uv.up uv.dir uv.pos
        else if matchKey name (("up" : String)).data (!opt.disableCaseInsensitive) then
          UVTransform.mk uv.aside [qmk 1 1] uv.dir uv.pos
        else if matchKey name (("dir" : String)).data (!opt.disableCaseInsensitive) then
          UVTransform.mk uv.aside uv.up [qmk 1 1] uv.pos
        else if matchKey name (("pos" : String)).data (!opt.disableCaseInsensitive) then
          UVTransform.mk uv.aside uv.up uv.dir [qmk 1 1]
        else uv) rest := by
  rcases opt with ⟨dci, dcm, drn⟩
  cases drn <;> rfl

/-- C2 counterexample: `sUVUnknown` contains `foo` inside its uvTransform
class; it parses fine, but the parse result has no trace of `foo` and the
formatted output no longer contains it — the field does not survive the
parse→format round trip. -/
theorem C2_unknown_preserved_cex :
    Decode none sUVUnknown = .ok mUVUnknown ∧
    containsStr (("foo" : String)).data sUVUnknown = true ∧
    containsStr (("foo" : String)).data (Format mUVUnknown none) = false := by
  refine ⟨decode_sUVUnknown, by decide, by decide⟩

/-- `mTopKept` formats with both extras re-emitted. -/
theorem format_mTopKept : Format mTopKept none =
    (("mainLight=\"Sun\";\nclass Weird\n\x7b\n    foo=1;\n\x7d;\n" : String)).data := by
  decide

/-- `mStageKept` formats with both stage extras re-emitted. -/
theorem format_mStageKept : Format mStageKept none =
    (("class Stage1\n\x7b\n    bar=2;\n    class Flt\n    \x7b\n        q=7;\n    \x7d;\n\x7d;\n" : String)).data := by
  decide

/-- `mTexGenKept` formats with both texGen extras re-emitted. -/
theorem format_mTexGenKept : Format mTexGenKept none =
    (("class TexGen0\n\x7b\n    baz=3;\n    class Glob\n    \x7b\n        w=8;\n    \x7d;\n\x7d;\n" : String)).data := by
  decide

/-- C2 (amended): unknown fields are captured and re-emitted in every
scope except inside `uvTransform`.  Universally over options, accumulators
and token streams: a top-level assignment whose name is not a color array,
specularPower or a shader ID, a stage-body assignment that is not
texture/uvSource/texGen, and a texGen-body assignment that is not uvSource
are parsed by the generic assignment parser and appended to the scope's
extras; a baseless class whose name is neither a Stage nor a TexGen name
(top level), or is not uvTransform (stage and texGen bodies), is parsed by
the generic class parser and appended to the scope's extras; the writer
re-emits every extra node, its rendering appearing contiguously in the
output at every scope (top level, stage blocks, texGen blocks, nested
class bodies); and concrete documents with unknown assignments and classes
in each scope decode and re-format with the unknown text preserved
verbatim.  But an assignment inside a `uvTransform` class whose name is
not aside/up/dir/pos is parsed and discarded: the uvTransform body loop
continues with its accumulator and remaining tokens as if the assignment
had not been there. -/
theorem C2_unknown_preserved :
    (∀ (opt : ParseOptions) (m : Material) (tn : Tok) (ts1 : List Tok),
      tn.t = .ident →
      isColorKey tn.lit (!opt.disableCaseInsensitive) = false →
      matchKey tn.lit (("specularpower" : String)).data (!opt.disableCaseInsensitive) = false →
      matchKey tn.lit (("pixelshaderid" : String)).data (!opt.disableCaseInsensitive) = false →
      matchKey tn.lit (("vertexshaderid" : String)).data (!opt.disableCaseInsensitive) = false →
      parseTopAssign opt m (tn :: ts1) =
        (parseAssign (tn :: ts1)).map fun p =>
          (Material.mk m.ambient m.diffuse m.forcedDiffuse m.emmisive m.specular
            m.specularPower m.pixelShaderID m.vertexShaderID m.stages m.texGens
            (m.extras ++ [p.1]), p.2)) ∧
    (∀ (opt : ParseOptions) (st : Stage) (tn : Tok) (ts1 : List Tok),
      tn.t = .ident →
      matchKey tn.lit (("texture" : String)).data (!opt.disableCaseInsensitive) = false →
      matchKey tn.lit (("uvsource" : String)).data (!opt.disableCaseInsensitive) = false →
      matchKey tn.lit (("texgen" : String)).data (!opt.disableCaseInsensitive) = false →
      parseStageAssign opt st (tn :: ts1) =
        (parseAssign (tn :: ts1)).map fun p =>
          (Stage.mk st.name st.texture st.uvSource st.texGen st.uvTransform
            (st.extras ++ [p.1]), p.2)) ∧
    (∀ (opt : ParseOptions) (tg : TexGen) (tn : Tok) (ts1 : List Tok),
      tn.t = .ident →
      matchKey tn.lit (("uvsource" : String)).data (!opt.disableCaseInsensitive) = false →
      parseTexGenAssign opt tg (tn :: ts1) =
        (parseAssign (tn :: ts1)).map fun p =>
          (TexGen.mk tg.name tg.base tg.uvSource tg.uvTransform
            (tg.extras ++ [p.1]), p.2)) ∧
    (∀ (opt : ParseOptions) (m : Material) (tc tn : Tok) (ts2 : List Tok),
      tc.t = .kclass → tn.t = .ident → ¬(peekT ts2).t = TokType.colon →
      isStageName tn.lit opt = false → isTexGenName tn.lit opt = false →
      parseTopClass opt m (tc :: tn :: ts2) =
        (parseClassBody tn.lit [] ts2).map fun p =>
          (Material.mk m.ambient m.diffuse m.forcedDiffuse m.emmisive m.specular
            m.specularPower m.pixelShaderID m.vertexShaderID m.stages m.texGens
            (m.extras ++ [p.1]), p.2)) ∧
    (∀ (opt : ParseOptions) (st : Stage) (tc tn : Tok) (ts2 : List Tok),
      tc.t = .kclass → tn.t = .ident → ¬(peekT ts2).t = TokType.colon →
      equalFoldOpt tn.lit (("uvTransform" : String)).data opt = false →
      parseStageClass opt st (tc :: tn :: ts2) =
        (parseClassBody tn.lit [] ts2).map fun p =>
          (Stage.mk st.name st.texture st.uvSource st.texGen st.uvTransform
            (st.extras ++ [p.1]), p.2)) ∧
    (∀ (opt : ParseOptions) (tg : TexGen) (tc tn : Tok) (ts2 : List Tok),
      tc.t = .kclass → tn.t = .ident → ¬(peekT ts2).t = TokType.colon →
      equalFoldOpt tn.lit (("uvTransform" : String)).data opt = false →
      parseTexGenClass opt tg (tc :: tn :: ts2) =
        (parseClassBody tn.lit [] ts2).map fun p =>
          (TexGen.mk tg.name tg.base tg.uvSource tg.uvTransform
            (tg.extras ++ [p.1]), p.2)) ∧
    (∀ (ind : Str) (m : Material) (nd : Node), nd ∈ m.extras →
      writeNode ind 0 nd <:+: writeMaterialStr ind m) ∧
    (∀ (ind : Str) (m : Material) (s : Stage) (nd : Node),
      s ∈ m.stages → nd ∈ s.extras →
      writeNode ind 1 nd <:+: writeMaterialStr ind m) ∧
    (∀ (ind : Str) (m : Material) (t : TexGen) (nd : Node),
      t ∈ m.texGens → nd ∈ t.extras →
      writeNode ind 1 nd <:+: writeMaterialStr ind m) ∧
    (∀ (ind : Str) (lvl : ℕ) (n b : Str) (body : List Node) (nd : Node),
      nd ∈ body →
      writeNode ind (lvl + 1) nd <:+: writeNode ind lvl (.cls n b body)) ∧
    (Decode none sTopKept = .ok mTopKept) ∧
    (Format mTopKept none =
      (("mainLight=\"Sun\";\nclass Weird\n\x7b\n    foo=1;\n\x7d;\n" : String)).data) ∧
    containsStr (("mainLight=\"Sun\";" : String)).data
      (("mainLight=\"Sun\";\nclass Weird\n\x7b\n    foo=1;\n\x7d;\n" : String)).data = true ∧
    containsStr (("class Weird" : String)).data
      (("mainLight=\"Sun\";\nclass Weird\n\x7b\n    foo=1;\n\x7d;\n" : String)).data = true ∧
    containsStr (("foo=1;" : String)).data
      (("mainLight=\"Sun\";\nclass Weird\n\x7b\n    foo=1;\n\x7d;\n" : String)).data = true ∧
    (Decode none sStageKept = .ok mStageKept) ∧
    (Format mStageKept none =
      (("class Stage1\n\x7b\n    bar=2;\n    class Flt\n    \x7b\n        q=7;\n    \x7d;\n\x7d;\n" : String)).data) ∧
    containsStr (("bar=2;" : String)).data
      (("class Stage1\n\x7b\n    bar=2;\n    class Flt\n    \x7b\n        q=7;\n    \x7d;\n\x7d;\n" : String)).data = true ∧
    containsStr (("class Flt" : String)).data
      (("class Stage1\n\x7b\n    bar=2;\n    class Flt\n    \x7b\n        q=7;\n    \x7d;\n\x7d;\n" : String)).data = true ∧
    containsStr (("q=7;" : String)).data
      (("class Stage1\n\x7b\n    bar=2;\n    class Flt\n    \x7b\n        q=7;\n    \x7d;\n\x7d;\n" : String)).data = true ∧
    (Decode none sTexGenKept = .ok mTexGenKept) ∧
    (Format mTexGenKept none =
      (("class TexGen0\n\x7b\n    baz=3;\n    class Glob\n    \x7b\n        w=8;\n    \x7d;\n\x7d;\n" : String)).data) ∧
    containsStr (("baz=3;" : String)).data
      (("class TexGen0\n\x7b\n    baz=3;\n    class Glob\n    \x7b\n        w=8;\n    \x7d;\n\x7d;\n" : String)).data = true ∧
    containsStr (("class Glob" : String)).data
      (("class TexGen0\n\x7b\n    baz=3;\n    class Glob\n    \x7b\n        w=8;\n    \x7d;\n\x7d;\n" : String)).data = true ∧
    containsStr (("w=8;" : String)).data
      (("class TexGen0\n\x7b\n    baz=3;\n    class Glob\n    \x7b\n        w=8;\n    \x7d;\n\x7d;\n" : String)).data = true ∧
    (∀ (opt : ParseOptions) (fuel : ℕ) (uv : UVTransform) (name : Str)
      (l1 c1 l2 c2 l3 c3 l4 c4 l5 c5 l6 c6 l7 c7 l8 c8 : ℕ) (rest : List Tok),
      ¬ matchKey name (("aside" : String)).data (!opt.disableCaseInsensitive) = true →
      ¬ matchKey name (("up" : String)).data (!opt.disableCaseInsensitive) = true →
      ¬ matchKey name (("dir" : String)).data (!opt.disableCaseInsensitive) = true →
      ¬ matchKey name (("pos" : String)).data (!opt.disableCaseInsensitive) = true →
      parseUVSeqF opt (fuel + 1) uv
        (⟨.ident, name, l1, c1⟩ :: ⟨.lbracket, ['['], l2, c2⟩ ::
         ⟨.rbracket, [']'], l3, c3⟩ :: ⟨.equal, ['='], l4, c4⟩ ::
         ⟨.lbrace, [Char.ofNat 123], l5, c5⟩ :: ⟨.number, ['1'], l6, c6⟩ ::
         ⟨.rbrace, [Char.ofNat 125], l7, c7⟩ :: ⟨.semicolon, [';'], l8, c8⟩ :: rest)
        = parseUVSeqF opt fuel uv rest) := by
  refine ⟨parseTopAssign_capture, parseStageAssign_capture, parseTexGenAssign_capture,
    parseTopClass_capture, parseStageClass_capture, parseTexGenClass_capture,
    extra_infix_writeMaterial,
    fun ind m s nd hs h =>
      (extra_infix_writeStage ind s nd h).trans (stage_infix_writeMaterial ind m s hs),
    fun ind m t nd ht h =>
      (extra_infix_writeTexGen ind t nd h).trans (texGen_infix_writeMaterial ind m t ht),
    body_infix_writeNode,
    decode_sTopKept, format_mTopKept, by decide, by decide, by decide,
    decode_sStageKept, format_mStageKept, by decide, by decide, by decide,
    decode_sTexGenKept, format_mTexGenKept, by decide, by decide, by decide, ?_⟩
  intro opt fuel uv name l1 c1 l2 c2 l3 c3 l4 c4 l5 c5 l6 c6 l7 c7 l8 c8 rest h1 h2 h3 h4
  rw [uvDiscardStep, if_neg h1, if_neg h2, if_neg h3, if_neg h4]

theorem C2_unknown_preserved_witness :
    parseTopAssign defaultParseOptions Material.empty
      [⟨.ident, (("mainLight" : String)).data, 1, 1⟩] =
      (parseAssign [⟨.ident, (("mainLight" : String)).data, 1, 1⟩]).map fun p =>
        (Material.mk Material.empty.ambient Material.empty.diffuse
          Material.empty.forcedDiffuse Material.empty.emmisive Material.empty.specular
          Material.empty.specularPower Material.empty.pixelShaderID
          Material.empty.vertexShaderID Material.empty.stages Material.empty.texGens
          (Material.empty.extras ++ [p.1]), p.2) :=
  C2_unknown_preserved.1 defaultParseOptions Material.empty
    ⟨.ident, (("mainLight" : String)).data, 1, 1⟩ []
    (by decide) (by decide) (by decide) (by decide) (by decide)

end Rvmat
